import Mathlib

/-!
# YouTube fake-loading killer: a shallow embedding of the user script

The script `youtube-fake-loading-killer.user.js` is embedded function by function.
JavaScript strings are lists of characters, timestamps (`Date.now()`) are integers
(milliseconds), media positions (`video.currentTime`) are exact rationals (seconds),
and host objects (DOM nodes, the player, `fetch`) appear as the records of what the
script reads from them together with a trace of the calls the script makes on them.
-/

namespace YtInterrupt

/-! ## Strings -/

/-- JavaScript string, as its sequence of characters. -/
abbrev JsString := List Char

/-- `String.prototype.includes`: `needle` occurs as a contiguous run of `text`. -/
def includes (text needle : JsString) : Bool :=
  decide (needle <:+: text)

/-- `String.prototype.startsWith`. -/
def startsWith (text needle : JsString) : Bool :=
  decide (needle <+: text)

/-! ### `String.prototype.toLowerCase`

ECMA-262 defines `toLowerCase` by the Unicode default case conversion: every
character is replaced by its lowercase mapping, which is the simple mapping of the
Unicode Character Database except for U+0130 (mapped to `i` followed by U+0307) and
for U+03A3, mapped to the final sigma U+03C2 in the Final_Sigma context and to U+03C3
elsewhere. The three tables below carry the data of Unicode 14.0. -/

/-- Part 1 of `lowercaseRanges`. -/
def lowercaseRanges1 : List (Nat × Nat × Nat × Nat) := [
  (192, 214, 1, 224), (216, 222, 1, 248), (256, 302, 2, 257), (306, 310, 2, 307),
  (313, 327, 2, 314), (330, 374, 2, 331), (376, 376, 1, 255), (377, 381, 2, 378),
  (385, 385, 1, 595), (386, 388, 2, 387), (390, 390, 1, 596), (391, 391, 1, 392),
  (393, 394, 1, 598), (395, 395, 1, 396), (398, 398, 1, 477), (399, 399, 1, 601),
  (400, 400, 1, 603), (401, 401, 1, 402), (403, 403, 1, 608), (404, 404, 1, 611),
  (406, 406, 1, 617), (407, 407, 1, 616), (408, 408, 1, 409), (412, 412, 1, 623),
  (413, 413, 1, 626), (415, 415, 1, 629), (416, 420, 2, 417), (422, 422, 1, 640),
  (423, 423, 1, 424), (425, 425, 1, 643), (428, 428, 1, 429), (430, 430, 1, 648) ]

/-- Part 2 of `lowercaseRanges`. -/
def lowercaseRanges2 : List (Nat × Nat × Nat × Nat) := [
  (431, 431, 1, 432), (433, 434, 1, 650), (435, 437, 2, 436), (439, 439, 1, 658),
  (440, 440, 1, 441), (444, 444, 1, 445), (452, 452, 1, 454), (453, 453, 1, 454),
  (455, 455, 1, 457), (456, 456, 1, 457), (458, 458, 1, 460), (459, 475, 2, 460),
  (478, 494, 2, 479), (497, 497, 1, 499), (498, 500, 2, 499), (502, 502, 1, 405),
  (503, 503, 1, 447), (504, 542, 2, 505), (544, 544, 1, 414), (546, 562, 2, 547),
  (570, 570, 1, 11365), (571, 571, 1, 572), (573, 573, 1, 410), (574, 574, 1, 11366),
  (577, 577, 1, 578), (579, 579, 1, 384), (580, 580, 1, 649), (581, 581, 1, 652),
  (582, 590, 2, 583), (880, 882, 2, 881), (886, 886, 1, 887), (895, 895, 1, 1011) ]

/-- Part 3 of `lowercaseRanges`. -/
def lowercaseRanges3 : List (Nat × Nat × Nat × Nat) := [
  (902, 902, 1, 940), (904, 906, 1, 941), (908, 908, 1, 972), (910, 911, 1, 973),
  (913, 929, 1, 945), (931, 939, 1, 963), (975, 975, 1, 983), (984, 1006, 2, 985),
  (1012, 1012, 1, 952), (1015, 1015, 1, 1016), (1017, 1017, 1, 1010), (1018, 1018, 1, 1019),
  (1021, 1023, 1, 891), (1024, 1039, 1, 1104), (1040, 1071, 1, 1072), (1120, 1152, 2, 1121),
  (1162, 1214, 2, 1163), (1216, 1216, 1, 1231), (1217, 1229, 2, 1218), (1232, 1326, 2, 1233),
  (1329, 1366, 1, 1377), (4256, 4293, 1, 11520), (4295, 4295, 1, 11559), (4301, 4301, 1, 11565),
  (5024, 5103, 1, 43888), (5104, 5109, 1, 5112), (7312, 7354, 1, 4304), (7357, 7359, 1, 4349),
  (7680, 7828, 2, 7681), (7838, 7838, 1, 223), (7840, 7934, 2, 7841), (7944, 7951, 1, 7936) ]

/-- Part 4 of `lowercaseRanges`. -/
def lowercaseRanges4 : List (Nat × Nat × Nat × Nat) := [
  (7960, 7965, 1, 7952), (7976, 7983, 1, 7968), (7992, 7999, 1, 7984), (8008, 8013, 1, 8000),
  (8025, 8031, 2, 8017), (8040, 8047, 1, 8032), (8072, 8079, 1, 8064), (8088, 8095, 1, 8080),
  (8104, 8111, 1, 8096), (8120, 8121, 1, 8112), (8122, 8123, 1, 8048), (8124, 8124, 1, 8115),
  (8136, 8139, 1, 8050), (8140, 8140, 1, 8131), (8152, 8153, 1, 8144), (8154, 8155, 1, 8054),
  (8168, 8169, 1, 8160), (8170, 8171, 1, 8058), (8172, 8172, 1, 8165), (8184, 8185, 1, 8056),
  (8186, 8187, 1, 8060), (8188, 8188, 1, 8179), (8486, 8486, 1, 969), (8490, 8490, 1, 107),
  (8491, 8491, 1, 229), (8498, 8498, 1, 8526), (8544, 8559, 1, 8560), (8579, 8579, 1, 8580),
  (9398, 9423, 1, 9424), (11264, 11311, 1, 11312), (11360, 11360, 1, 11361), (11362, 11362, 1, 619) ]

/-- Part 5 of `lowercaseRanges`. -/
def lowercaseRanges5 : List (Nat × Nat × Nat × Nat) := [
  (11363, 11363, 1, 7549), (11364, 11364, 1, 637), (11367, 11371, 2, 11368), (11373, 11373, 1, 593),
  (11374, 11374, 1, 625), (11375, 11375, 1, 592), (11376, 11376, 1, 594), (11378, 11378, 1, 11379),
  (11381, 11381, 1, 11382), (11390, 11391, 1, 575), (11392, 11490, 2, 11393), (11499, 11501, 2, 11500),
  (11506, 11506, 1, 11507), (42560, 42604, 2, 42561), (42624, 42650, 2, 42625), (42786, 42798, 2, 42787),
  (42802, 42862, 2, 42803), (42873, 42875, 2, 42874), (42877, 42877, 1, 7545), (42878, 42886, 2, 42879),
  (42891, 42891, 1, 42892), (42893, 42893, 1, 613), (42896, 42898, 2, 42897), (42902, 42920, 2, 42903),
  (42922, 42922, 1, 614), (42923, 42923, 1, 604), (42924, 42924, 1, 609), (42925, 42925, 1, 620),
  (42926, 42926, 1, 618), (42928, 42928, 1, 670), (42929, 42929, 1, 647), (42930, 42930, 1, 669) ]

/-- Part 6 of `lowercaseRanges`. -/
def lowercaseRanges6 : List (Nat × Nat × Nat × Nat) := [
  (42931, 42931, 1, 43859), (42932, 42946, 2, 42933), (42948, 42948, 1, 42900), (42949, 42949, 1, 642),
  (42950, 42950, 1, 7566), (42951, 42953, 2, 42952), (42960, 42960, 1, 42961), (42966, 42968, 2, 42967),
  (42997, 42997, 1, 42998), (65313, 65338, 1, 65345), (66560, 66599, 1, 66600), (66736, 66771, 1, 66776),
  (66928, 66938, 1, 66967), (66940, 66954, 1, 66979), (66956, 66962, 1, 66995), (66964, 66965, 1, 67003),
  (68736, 68786, 1, 68800), (71840, 71871, 1, 71872), (93760, 93791, 1, 93792), (125184, 125217, 1, 125218) ]

/-- The simple lowercase mappings of the Unicode Character Database (version 14.0)
beyond ASCII, in parts: `(first, last, step, target)` maps the code points `first`,
`first + step`, ... up to `last` to `target`, `target + step`, ... -/
def lowercaseRanges : List (List (Nat × Nat × Nat × Nat)) :=
  [lowercaseRanges1, lowercaseRanges2, lowercaseRanges3, lowercaseRanges4, lowercaseRanges5,
   lowercaseRanges6]

/-- Part 1 of `caseIgnorableRanges`. -/
def caseIgnorableRanges1 : List (Nat × Nat) := [
  (39, 39), (46, 46), (58, 58), (94, 94), (96, 96), (168, 168),
  (173, 173), (175, 175), (180, 180), (183, 184), (688, 879), (884, 885),
  (890, 890), (900, 901), (903, 903), (1155, 1161), (1369, 1369), (1375, 1375),
  (1425, 1469), (1471, 1471), (1473, 1474), (1476, 1477), (1479, 1479), (1524, 1524),
  (1536, 1541), (1552, 1562), (1564, 1564), (1600, 1600), (1611, 1631), (1648, 1648),
  (1750, 1757), (1759, 1768) ]

/-- Part 2 of `caseIgnorableRanges`. -/
def caseIgnorableRanges2 : List (Nat × Nat) := [
  (1770, 1773), (1807, 1807), (1809, 1809), (1840, 1866), (1958, 1968), (2027, 2037),
  (2042, 2042), (2045, 2045), (2070, 2093), (2137, 2139), (2184, 2184), (2192, 2193),
  (2200, 2207), (2249, 2306), (2362, 2362), (2364, 2364), (2369, 2376), (2381, 2381),
  (2385, 2391), (2402, 2403), (2417, 2417), (2433, 2433), (2492, 2492), (2497, 2500),
  (2509, 2509), (2530, 2531), (2558, 2558), (2561, 2562), (2620, 2620), (2625, 2626),
  (2631, 2632), (2635, 2637) ]

/-- Part 3 of `caseIgnorableRanges`. -/
def caseIgnorableRanges3 : List (Nat × Nat) := [
  (2641, 2641), (2672, 2673), (2677, 2677), (2689, 2690), (2748, 2748), (2753, 2757),
  (2759, 2760), (2765, 2765), (2786, 2787), (2810, 2815), (2817, 2817), (2876, 2876),
  (2879, 2879), (2881, 2884), (2893, 2893), (2901, 2902), (2914, 2915), (2946, 2946),
  (3008, 3008), (3021, 3021), (3072, 3072), (3076, 3076), (3132, 3132), (3134, 3136),
  (3142, 3144), (3146, 3149), (3157, 3158), (3170, 3171), (3201, 3201), (3260, 3260),
  (3263, 3263), (3270, 3270) ]

/-- Part 4 of `caseIgnorableRanges`. -/
def caseIgnorableRanges4 : List (Nat × Nat) := [
  (3276, 3277), (3298, 3299), (3328, 3329), (3387, 3388), (3393, 3396), (3405, 3405),
  (3426, 3427), (3457, 3457), (3530, 3530), (3538, 3540), (3542, 3542), (3633, 3633),
  (3636, 3642), (3654, 3662), (3761, 3761), (3764, 3772), (3782, 3782), (3784, 3789),
  (3864, 3865), (3893, 3893), (3895, 3895), (3897, 3897), (3953, 3966), (3968, 3972),
  (3974, 3975), (3981, 3991), (3993, 4028), (4038, 4038), (4141, 4144), (4146, 4151),
  (4153, 4154), (4157, 4158) ]

/-- Part 5 of `caseIgnorableRanges`. -/
def caseIgnorableRanges5 : List (Nat × Nat) := [
  (4184, 4185), (4190, 4192), (4209, 4212), (4226, 4226), (4229, 4230), (4237, 4237),
  (4253, 4253), (4348, 4348), (4957, 4959), (5906, 5908), (5938, 5939), (5970, 5971),
  (6002, 6003), (6068, 6069), (6071, 6077), (6086, 6086), (6089, 6099), (6103, 6103),
  (6109, 6109), (6155, 6159), (6211, 6211), (6277, 6278), (6313, 6313), (6432, 6434),
  (6439, 6440), (6450, 6450), (6457, 6459), (6679, 6680), (6683, 6683), (6742, 6742),
  (6744, 6750), (6752, 6752) ]

/-- Part 6 of `caseIgnorableRanges`. -/
def caseIgnorableRanges6 : List (Nat × Nat) := [
  (6754, 6754), (6757, 6764), (6771, 6780), (6783, 6783), (6823, 6823), (6832, 6862),
  (6912, 6915), (6964, 6964), (6966, 6970), (6972, 6972), (6978, 6978), (7019, 7027),
  (7040, 7041), (7074, 7077), (7080, 7081), (7083, 7085), (7142, 7142), (7144, 7145),
  (7149, 7149), (7151, 7153), (7212, 7219), (7222, 7223), (7288, 7293), (7376, 7378),
  (7380, 7392), (7394, 7400), (7405, 7405), (7412, 7412), (7416, 7417), (7468, 7530),
  (7544, 7544), (7579, 7679) ]

/-- Part 7 of `caseIgnorableRanges`. -/
def caseIgnorableRanges7 : List (Nat × Nat) := [
  (8125, 8125), (8127, 8129), (8141, 8143), (8157, 8159), (8173, 8175), (8189, 8190),
  (8203, 8207), (8216, 8217), (8228, 8228), (8231, 8231), (8234, 8238), (8288, 8292),
  (8294, 8303), (8305, 8305), (8319, 8319), (8336, 8348), (8400, 8432), (11388, 11389),
  (11503, 11505), (11631, 11631), (11647, 11647), (11744, 11775), (11823, 11823), (12293, 12293),
  (12330, 12333), (12337, 12341), (12347, 12347), (12441, 12446), (12540, 12542), (40981, 40981),
  (42232, 42237), (42508, 42508) ]

/-- Part 8 of `caseIgnorableRanges`. -/
def caseIgnorableRanges8 : List (Nat × Nat) := [
  (42607, 42610), (42612, 42621), (42623, 42623), (42652, 42655), (42736, 42737), (42752, 42785),
  (42864, 42864), (42888, 42890), (42994, 42996), (43000, 43001), (43010, 43010), (43014, 43014),
  (43019, 43019), (43045, 43046), (43052, 43052), (43204, 43205), (43232, 43249), (43263, 43263),
  (43302, 43309), (43335, 43345), (43392, 43394), (43443, 43443), (43446, 43449), (43452, 43453),
  (43471, 43471), (43493, 43494), (43561, 43566), (43569, 43570), (43573, 43574), (43587, 43587),
  (43596, 43596), (43632, 43632) ]

/-- Part 9 of `caseIgnorableRanges`. -/
def caseIgnorableRanges9 : List (Nat × Nat) := [
  (43644, 43644), (43696, 43696), (43698, 43700), (43703, 43704), (43710, 43711), (43713, 43713),
  (43741, 43741), (43756, 43757), (43763, 43764), (43766, 43766), (43867, 43871), (43881, 43883),
  (44005, 44005), (44008, 44008), (44013, 44013), (64286, 64286), (64434, 64450), (65024, 65039),
  (65043, 65043), (65056, 65071), (65106, 65106), (65109, 65109), (65279, 65279), (65287, 65287),
  (65294, 65294), (65306, 65306), (65342, 65342), (65344, 65344), (65392, 65392), (65438, 65439),
  (65507, 65507), (65529, 65531) ]

/-- Part 10 of `caseIgnorableRanges`. -/
def caseIgnorableRanges10 : List (Nat × Nat) := [
  (66045, 66045), (66272, 66272), (66422, 66426), (67456, 67461), (67463, 67504), (67506, 67514),
  (68097, 68099), (68101, 68102), (68108, 68111), (68152, 68154), (68159, 68159), (68325, 68326),
  (68900, 68903), (69291, 69292), (69446, 69456), (69506, 69509), (69633, 69633), (69688, 69702),
  (69744, 69744), (69747, 69748), (69759, 69761), (69811, 69814), (69817, 69818), (69821, 69821),
  (69826, 69826), (69837, 69837), (69888, 69890), (69927, 69931), (69933, 69940), (70003, 70003),
  (70016, 70017), (70070, 70078) ]

/-- Part 11 of `caseIgnorableRanges`. -/
def caseIgnorableRanges11 : List (Nat × Nat) := [
  (70089, 70092), (70095, 70095), (70191, 70193), (70196, 70196), (70198, 70199), (70206, 70206),
  (70367, 70367), (70371, 70378), (70400, 70401), (70459, 70460), (70464, 70464), (70502, 70508),
  (70512, 70516), (70712, 70719), (70722, 70724), (70726, 70726), (70750, 70750), (70835, 70840),
  (70842, 70842), (70847, 70848), (70850, 70851), (71090, 71093), (71100, 71101), (71103, 71104),
  (71132, 71133), (71219, 71226), (71229, 71229), (71231, 71232), (71339, 71339), (71341, 71341),
  (71344, 71349), (71351, 71351) ]

/-- Part 12 of `caseIgnorableRanges`. -/
def caseIgnorableRanges12 : List (Nat × Nat) := [
  (71453, 71455), (71458, 71461), (71463, 71467), (71727, 71735), (71737, 71738), (71995, 71996),
  (71998, 71998), (72003, 72003), (72148, 72151), (72154, 72155), (72160, 72160), (72193, 72202),
  (72243, 72248), (72251, 72254), (72263, 72263), (72273, 72278), (72281, 72283), (72330, 72342),
  (72344, 72345), (72752, 72758), (72760, 72765), (72767, 72767), (72850, 72871), (72874, 72880),
  (72882, 72883), (72885, 72886), (73009, 73014), (73018, 73018), (73020, 73021), (73023, 73029),
  (73031, 73031), (73104, 73105) ]

/-- Part 13 of `caseIgnorableRanges`. -/
def caseIgnorableRanges13 : List (Nat × Nat) := [
  (73109, 73109), (73111, 73111), (73459, 73460), (78896, 78904), (92912, 92916), (92976, 92982),
  (92992, 92995), (94031, 94031), (94095, 94111), (94176, 94177), (94179, 94180), (110576, 110579),
  (110581, 110587), (110589, 110590), (113821, 113822), (113824, 113827), (118528, 118573), (118576, 118598),
  (119143, 119145), (119155, 119170), (119173, 119179), (119210, 119213), (119362, 119364), (121344, 121398),
  (121403, 121452), (121461, 121461), (121476, 121476), (121499, 121503), (121505, 121519), (122880, 122886),
  (122888, 122904), (122907, 122913) ]

/-- Part 14 of `caseIgnorableRanges`. -/
def caseIgnorableRanges14 : List (Nat × Nat) := [
  (122915, 122916), (122918, 122922), (123184, 123197), (123566, 123566), (123628, 123631), (125136, 125142),
  (125252, 125259), (127995, 127999), (917505, 917505), (917536, 917631), (917760, 917999) ]

/-- The code points with the Unicode property `Case_Ignorable` (version 14.0), as
closed ranges, in parts. -/
def caseIgnorableRanges : List (List (Nat × Nat)) :=
  [caseIgnorableRanges1, caseIgnorableRanges2, caseIgnorableRanges3, caseIgnorableRanges4, caseIgnorableRanges5,
   caseIgnorableRanges6, caseIgnorableRanges7, caseIgnorableRanges8, caseIgnorableRanges9, caseIgnorableRanges10,
   caseIgnorableRanges11, caseIgnorableRanges12, caseIgnorableRanges13, caseIgnorableRanges14]

/-- Part 1 of `casedRanges`. -/
def casedRanges1 : List (Nat × Nat) := [
  (65, 90), (97, 122), (170, 170), (181, 181), (186, 186), (192, 214),
  (216, 246), (248, 442), (444, 447), (452, 659), (661, 687), (880, 883),
  (886, 887), (891, 893), (895, 895), (902, 902), (904, 906), (908, 908),
  (910, 929), (931, 1013), (1015, 1153), (1162, 1327), (1329, 1366), (1376, 1416),
  (4256, 4293), (4295, 4295), (4301, 4301), (4304, 4346), (4349, 4351), (5024, 5109),
  (5112, 5117), (7296, 7304) ]

/-- Part 2 of `casedRanges`. -/
def casedRanges2 : List (Nat × Nat) := [
  (7312, 7354), (7357, 7359), (7424, 7467), (7531, 7543), (7545, 7578), (7680, 7957),
  (7960, 7965), (7968, 8005), (8008, 8013), (8016, 8023), (8025, 8025), (8027, 8027),
  (8029, 8029), (8031, 8061), (8064, 8116), (8118, 8124), (8126, 8126), (8130, 8132),
  (8134, 8140), (8144, 8147), (8150, 8155), (8160, 8172), (8178, 8180), (8182, 8188),
  (8450, 8450), (8455, 8455), (8458, 8467), (8469, 8469), (8473, 8477), (8484, 8484),
  (8486, 8486), (8488, 8488) ]

/-- Part 3 of `casedRanges`. -/
def casedRanges3 : List (Nat × Nat) := [
  (8490, 8493), (8495, 8500), (8505, 8505), (8508, 8511), (8517, 8521), (8526, 8526),
  (8544, 8575), (8579, 8580), (9398, 9449), (11264, 11387), (11390, 11492), (11499, 11502),
  (11506, 11507), (11520, 11557), (11559, 11559), (11565, 11565), (42560, 42605), (42624, 42651),
  (42786, 42863), (42865, 42887), (42891, 42894), (42896, 42954), (42960, 42961), (42963, 42963),
  (42965, 42969), (42997, 42998), (43002, 43002), (43824, 43866), (43872, 43880), (43888, 43967),
  (64256, 64262), (64275, 64279) ]

/-- Part 4 of `casedRanges`. -/
def casedRanges4 : List (Nat × Nat) := [
  (65313, 65338), (65345, 65370), (66560, 66639), (66736, 66771), (66776, 66811), (66928, 66938),
  (66940, 66954), (66956, 66962), (66964, 66965), (66967, 66977), (66979, 66993), (66995, 67001),
  (67003, 67004), (68736, 68786), (68800, 68850), (71840, 71903), (93760, 93823), (119808, 119892),
  (119894, 119964), (119966, 119967), (119970, 119970), (119973, 119974), (119977, 119980), (119982, 119993),
  (119995, 119995), (119997, 120003), (120005, 120069), (120071, 120074), (120077, 120084), (120086, 120092),
  (120094, 120121), (120123, 120126) ]

/-- Part 5 of `casedRanges`. -/
def casedRanges5 : List (Nat × Nat) := [
  (120128, 120132), (120134, 120134), (120138, 120144), (120146, 120485), (120488, 120512), (120514, 120538),
  (120540, 120570), (120572, 120596), (120598, 120628), (120630, 120654), (120656, 120686), (120688, 120712),
  (120714, 120744), (120746, 120770), (120772, 120779), (122624, 122633), (122635, 122654), (125184, 125251),
  (127280, 127305), (127312, 127337), (127344, 127369) ]

/-- The code points with the Unicode property `Cased` and without `Case_Ignorable`
(version 14.0), as closed ranges, in parts; the Final_Sigma rule tests casedness
only on characters that are not case-ignorable. -/
def casedRanges : List (List (Nat × Nat)) :=
  [casedRanges1, casedRanges2, casedRanges3, casedRanges4, casedRanges5]

/-- Membership of a code point in a table of closed ranges. -/
def inRanges (table : List (List (Nat × Nat))) (n : Nat) : Bool :=
  table.any (fun part => part.any (fun r => decide (r.1 ≤ n) && decide (n ≤ r.2)))

/-- The simple lowercase mapping of a character: `A`-`Z` within ASCII, the table
`lowercaseRanges` beyond. -/
def lowerChar (c : Char) : Char :=
  let n := c.toNat
  if n < 128 then
    if 65 ≤ n ∧ n ≤ 90 then Char.ofNat (n + 32) else c
  else
    match lowercaseRanges.findSome? (fun part => part.find? (fun r =>
        decide (r.1 ≤ n) && decide (n ≤ r.2.1) && (n - r.1) % r.2.2.1 == 0)) with
    | some r => Char.ofNat (r.2.2.2 + (n - r.1))
    | none => c

/-- U+0130, the capital I with dot above. -/
def capitalIWithDot : Char := Char.ofNat 0x130

/-- U+0307, the combining dot above. -/
def combiningDotAbove : Char := Char.ofNat 0x307

/-- U+03A3, the capital sigma. -/
def capitalSigma : Char := Char.ofNat 0x3A3

/-- U+03C3, the small sigma. -/
def smallSigma : Char := Char.ofNat 0x3C3

/-- U+03C2, the final small sigma. -/
def finalSmallSigma : Char := Char.ofNat 0x3C2

/-- The Unicode property `Case_Ignorable`. -/
def isCaseIgnorable (c : Char) : Bool :=
  inRanges caseIgnorableRanges c.toNat

/-- The Unicode property `Cased`, for a character that is not case-ignorable. -/
def isCased (c : Char) : Bool :=
  inRanges casedRanges c.toNat

/-- Walking through `context` away from a sigma, the first character that is not
case-ignorable is cased. -/
def followedByCased (context : List Char) : Bool :=
  match context.dropWhile isCaseIgnorable with
  | [] => false
  | c :: _ => isCased c

/-- The Final_Sigma context: a cased letter precedes (case-ignorable characters
skipped) and none follows; `before` holds the preceding characters, nearest first. -/
def finalSigma (before after : List Char) : Bool :=
  followedByCased before && !followedByCased after

/-- The lowercase mapping of the character `c` standing between `before` (nearest
first) and `after`. -/
def lowerAt (before : List Char) (c : Char) (after : List Char) : List Char :=
  if c = capitalIWithDot then ['i', combiningDotAbove]
  else if c = capitalSigma then
    [if finalSigma before after then finalSmallSigma else smallSigma]
  else [lowerChar c]

/-- The lowercase mapping of a text that follows the characters of `before`
(nearest first). -/
def lowerFrom : List Char → List Char → List Char
  | _, [] => []
  | before, c :: rest => lowerAt before c rest ++ lowerFrom (c :: before) rest

/-- `String.prototype.toLowerCase`. -/
def toLowerCase (text : JsString) : JsString :=
  lowerFrom [] text

/-- The character is lowered to one character, the same in every context: it is
neither U+0130 nor the capital sigma. -/
def isPlain (c : Char) : Bool :=
  c != capitalIWithDot && c != capitalSigma

/-- The text holds no combining dot above and no small sigma, and does not end in
`i`: no part of it can come from lowering U+0130 or a capital sigma, and it cannot
end inside the two characters U+0130 is lowered to. -/
def lowerSafe (P : JsString) : Bool :=
  P.all (fun x => x != combiningDotAbove && x != smallSigma && x != finalSmallSigma) &&
    P.getLast? != some 'i'

/-- `lower(value)`: `(value || '').toLowerCase()`. -/
def lower (value : JsString) : JsString :=
  toLowerCase value

/-- `hasAnyText(text, needles)`. -/
def hasAnyText (text : JsString) (needles : List JsString) : Bool :=
  let normalized := lower text
  needles.any (fun needle => includes normalized needle)

/-- `shortText(value, max)`: `String(value || '')` cut to `max` characters plus `...`. -/
def shortText (value : JsString) (max : Nat) : JsString :=
  let text := value
  if text.length > max then text.take max ++ "...".toList else text

/-- `Array.prototype.join(' ')` on attribute reads: `null` joins as the empty string. -/
def joinSpace (parts : List (Option JsString)) : JsString :=
  List.intercalate " ".toList (parts.map (fun p => p.getD []))

/-! ## Constants -/

def WATCH_PATH : JsString := "/watch".toList

def SUPPORT_CODE : JsString := "3037019".toList

def FLAG_KEYS : List JsString := [
  "check_user_lact_at_prompt_shown_time_on_web".toList,
  "enable_time_out_messages".toList,
  "kevlar_autonav_popup_filtering".toList ]

def DIALOG_TEXTS : List JsString := [
  "experiencing interruptions".toList,
  "playback interrupted".toList,
  "was playback interrupted".toList,
  "再生が中断".toList,
  "播放中断".toList,
  "播放已中断".toList,
  "재생이 중단".toList ]

def ACTION_TEXTS : List JsString := [
  "continue".toList,
  "resume".toList,
  "yes".toList,
  "ok".toList,
  "watch".toList,
  "続行".toList,
  "再生".toList,
  "はい".toList,
  "继续".toList,
  "繼續".toList,
  "계속".toList ]

def STUCK_THRESHOLD_MS : Int := 8000

def DEBUG_LOG_LIMIT : Nat := 400

def READY_STATE_TEXT : List JsString := [
  "HAVE_NOTHING".toList,
  "HAVE_METADATA".toList,
  "HAVE_CURRENT_DATA".toList,
  "HAVE_FUTURE_DATA".toList,
  "HAVE_ENOUGH_DATA".toList ]

def NETWORK_STATE_TEXT : List JsString := [
  "NETWORK_EMPTY".toList,
  "NETWORK_IDLE".toList,
  "NETWORK_LOADING".toList,
  "NETWORK_NO_SOURCE".toList ]

/-! ## Pattern matcher -/

/-- `containsInterruptionMarker(value)`. -/
def containsInterruptionMarker (value : JsString) : Bool :=
  let text := lower value
  if text.isEmpty then false
  else if includes text SUPPORT_CODE then true
  else DIALOG_TEXTS.any (fun needle => includes text needle)

/-- `isInterestingRequest(url)`. -/
def isInterestingRequest (url : JsString) : Bool :=
  let text := lower url
  includes text "videoplayback".toList ||
    includes text "initplayback".toList ||
    includes text "/youtubei/v1/player".toList ||
    includes text "googlevideo.com".toList ||
    includes text "3037019".toList ||
    includes text "check_ad_blockers".toList

/-- The string `S` contains the phrase `P` in some letter case: a contiguous run of
`S` equals `P` once both are lower-cased. -/
def ContainsAnyCase (S P : JsString) : Prop :=
  ∃ T : JsString, T <:+: S ∧ toLowerCase T = toLowerCase P

/-! ## Values, objects and the diagnostic log -/

/-- JavaScript values as far as the script inspects them. An object carries what
`JSON.stringify` makes of it: `none` when that throws or yields `undefined`. -/
inductive JsValue where
  | undefined
  | null
  | bool (b : Bool)
  | num (n : Int)
  | str (s : JsString)
  | object (json : Option JsString)
  deriving DecidableEq

/-- Truthiness (`!!value`). -/
def truthy : JsValue → Bool
  | .undefined => false
  | .null => false
  | .bool b => b
  | .num n => n != 0
  | .str s => !s.isEmpty
  | .object _ => true

/-- `JSON.stringify(value)` for a value that is not a string: `none` when it throws
or yields `undefined`. -/
def jsonStringify : JsValue → Option JsString
  | .undefined => none
  | .null => some "null".toList
  | .bool true => some "true".toList
  | .bool false => some "false".toList
  | .num n => some (toString n).toList
  | .str s => some s
  | .object json => json

/-- `payloadToText(payload)`. -/
def payloadToText (payload : JsValue) : JsString :=
  if !truthy payload then []
  else match payload with
    | .str s => s
    | other => (jsonStringify other).getD []

/-- Value stored in the payload of a diagnostic entry. -/
inductive LogValue where
  | js (v : JsValue)
  | text (s : JsString)
  | texts (items : List JsString)
  | int (n : Int)
  | flag (b : Bool)
  | fixed3 (q : ℚ)
  deriving DecidableEq

/-- Entry of `debugLogs`: `{ at, type, payload }`. -/
structure DiagnosticEntry where
  atTime : Int
  type : JsString
  payload : List (JsString × LogValue)
  deriving DecidableEq

/-- Start-up settings: the `DEBUG` constant and whether `STORAGE` is non-null. -/
structure Settings where
  DEBUG : Bool
  STORAGE : Bool
  deriving DecidableEq

/-- The mutable state of the diagnostic log: `debugLogs`, `storageWriteCounter` and
the snapshot last written under `STORAGE_LOG_KEY`. -/
structure DebugState where
  debugLogs : List DiagnosticEntry
  storageWriteCounter : Nat
  storedLogs : Option (List DiagnosticEntry)
  deriving DecidableEq

/-- The test `/error|blocked|recovery|stalled|waiting/.test(type)`. -/
def persistPattern (type : JsString) : Bool :=
  includes type "error".toList || includes type "blocked".toList ||
    includes type "recovery".toList || includes type "stalled".toList ||
    includes type "waiting".toList

/-- `debug(type, payload)`, called when the clock reads `clock`. -/
def debug (cfg : Settings) (clock : Int) (type : JsString)
    (payload : List (JsString × LogValue)) (st : DebugState) : DebugState :=
  if !cfg.DEBUG then st
  else
    let entry : DiagnosticEntry := { atTime := clock, type := type, payload := payload }
    let pushed := st.debugLogs ++ [entry]
    let logs :=
      if pushed.length > DEBUG_LOG_LIMIT then pushed.drop (pushed.length - DEBUG_LOG_LIMIT)
      else pushed
    let counter := st.storageWriteCounter + 1
    let persist := type == "init".toList || counter % 5 == 0 || persistPattern type
    { debugLogs := logs
      storageWriteCounter := counter
      storedLogs := if persist && cfg.STORAGE then some logs else st.storedLogs }

/-- Plain object: its own properties in insertion order. -/
abbrev JsObject := List (JsString × JsValue)

/-- `Object.prototype.hasOwnProperty.call(o, key)`. -/
def hasOwnProperty (o : JsObject) (key : JsString) : Bool :=
  o.any (fun p => p.1 == key)

/-- Property read `o[key]`. -/
def getProp (o : JsObject) (key : JsString) : JsValue :=
  (o.lookup key).getD .undefined

/-- Property write `o[key] = v`. -/
def setProp (o : JsObject) (key : JsString) (v : JsValue) : JsObject :=
  if hasOwnProperty o key then o.map (fun p => if p.1 == key then (p.1, v) else p)
  else o ++ [(key, v)]

/-! ## Flags -/

/-- The `for (const key of FLAG_KEYS)` loop of `disableFlags`. -/
def disableFlagsLoop : List JsString → JsObject → List JsString → JsObject × List JsString
  | [], flags, changed => (flags, changed)
  | key :: rest, flags, changed =>
    if hasOwnProperty flags key then
      let changed1 := if getProp flags key != .bool false then changed ++ [key] else changed
      disableFlagsLoop rest (setProp flags key (.bool false)) changed1
    else disableFlagsLoop rest flags changed

/-- `disableFlags(flags)`; `none` stands for an argument that is not an object. -/
def disableFlags (cfg : Settings) (clock : Int) (flags : Option JsObject) (dbg : DebugState) :
    Option JsObject × DebugState :=
  match flags with
  | none => (none, dbg)
  | some o =>
    let r := disableFlagsLoop FLAG_KEYS o []
    (some r.1,
      if r.2.length != 0 then debug cfg clock "flags_disabled".toList [("keys".toList, .texts r.2)] dbg
      else dbg)

/-! ## Installing the interceptors -/

/-- Function values of the page: a function of the host, or one of the wrappers of
the script closed over the function it replaced. -/
inductive JsFunction where
  | native
  | patchedFetch (originalFetch : JsFunction)
  | patchedXhrOpen (originalOpen : JsFunction)
  | patchedXhrSend (originalSend : JsFunction)
  | patchedSet (originalSet : JsFunction)
  | patchedLR (originalLR : JsFunction)
  | patchedPauseVideo (originalPause : JsFunction)
  deriving DecidableEq

/-- Number of wrapper layers of the script around the host function. -/
def JsFunction.layers : JsFunction → Nat
  | .native => 0
  | .patchedFetch f => f.layers + 1
  | .patchedXhrOpen f => f.layers + 1
  | .patchedXhrSend f => f.layers + 1
  | .patchedSet f => f.layers + 1
  | .patchedLR f => f.layers + 1
  | .patchedPauseVideo f => f.layers + 1

/-- What `patchNetworkApis` touches: `PAGE_WINDOW.fetch` (`none` when it is not a
function), `XMLHttpRequest.prototype.open` and `.send`, and the mark
`PAGE_WINDOW[NETWORK_PATCH_MARK]`. -/
structure NetworkApis where
  fetch : Option JsFunction
  xhrOpen : JsFunction
  xhrSend : JsFunction
  networkPatchMark : Bool
  deriving DecidableEq

/-- `patchNetworkApis()`. -/
def patchNetworkApis (w : NetworkApis) : NetworkApis :=
  if w.networkPatchMark then w
  else
    { fetch := w.fetch.map JsFunction.patchedFetch
      xhrOpen := .patchedXhrOpen w.xhrOpen
      xhrSend := .patchedXhrSend w.xhrSend
      networkPatchMark := true }

/-- The object `ytcfg.data_ || ytcfg.d()`. -/
structure YtcfgData where
  EXPERIMENT_FLAGS : Option JsObject
  EXPERIMENTS_FORCED_FLAGS : Option JsObject
  deriving DecidableEq

/-- The object `window.ytcfg`: its data (`none` when it is not an object), its `set`
(`none` when it is not a function) and the mark `__interruptPatchInstalled`. -/
structure Ytcfg where
  data : Option YtcfgData
  set : Option JsFunction
  interruptPatchInstalled : Bool
  deriving DecidableEq

/-- `patchYtConfig()`; `none` stands for a `window.ytcfg` that is not an object. -/
def patchYtConfig (cfg : Settings) (clock : Int) (ytcfg : Option Ytcfg) (dbg : DebugState) :
    Option Ytcfg × DebugState :=
  match ytcfg with
  | none => (none, dbg)
  | some y =>
    let r : Option YtcfgData × DebugState :=
      match y.data with
      | none => (none, dbg)
      | some data =>
        let r1 := disableFlags cfg clock data.EXPERIMENT_FLAGS dbg
        let r2 := disableFlags cfg clock data.EXPERIMENTS_FORCED_FLAGS r1.2
        (some { EXPERIMENT_FLAGS := r1.1, EXPERIMENTS_FORCED_FLAGS := r2.1 }, r2.2)
    let y1 : Ytcfg := { y with data := r.1 }
    if y1.interruptPatchInstalled || y1.set.isNone then (some y1, r.2)
    else
      (some { y1 with set := y1.set.map JsFunction.patchedSet, interruptPatchInstalled := true },
        r.2)

/-- The element `#movie_player` as the script uses it: `LR` and `pauseVideo` (`none`
when not a function), the value `getPlayerState()` returns (`none` when it is not a
function), whether `playVideo` and `seekTo` are functions, and the mark
`PLAYER_PATCH_MARK`. -/
structure Player where
  LR : Option JsFunction
  pauseVideo : Option JsFunction
  getPlayerState : Option Int
  playVideo : Bool
  seekTo : Bool
  interruptPatchInstalled : Bool
  deriving DecidableEq

/-- `patchPlayerApi()`, on the result of `findPlayer()`. -/
def patchPlayerApi (player : Option Player) : Option Player :=
  match player with
  | none => none
  | some p =>
    if p.interruptPatchInstalled then some p
    else
      some { p with
        LR := p.LR.map JsFunction.patchedLR
        pauseVideo := p.pauseVideo.map JsFunction.patchedPauseVideo
        interruptPatchInstalled := true }

/-- The install routine of the config surface run once per clock reading of
`clocks`, on the pair of `window.ytcfg` and the diagnostic log. -/
def patchYtConfigTimes (cfg : Settings) (clocks : List Int)
    (s : Option Ytcfg × DebugState) : Option Ytcfg × DebugState :=
  clocks.foldl (fun acc clock => patchYtConfig cfg clock acc.1 acc.2) s

/-! ## The player dispatcher -/

/-- Outcome of a call of a wrapper: the wrapper returned at once (`undefined`)
without calling the function it wraps, or it called that function and returned its
result. -/
inductive CallResult (ρ : Type) where
  | swallowed
  | forwarded (result : ρ)
  deriving DecidableEq

/-- `patchedLR(eventName, payload)` with receiver `this` and argument list `args`;
`originalLR` acts on the host state `σ`. -/
def patchedLR {σ τ ρ : Type} (cfg : Settings) (clock : Int)
    (originalLR : σ → τ → List JsValue → ρ × σ) (this : τ) (args : List JsValue)
    (host : σ) (dbg : DebugState) : CallResult ρ × σ × DebugState :=
  let eventName := args.getD 0 .undefined
  let payload := args.getD 1 .undefined
  if (eventName == .str "onSnackbarMessage".toList &&
        (payload == .num 1 || payload == .str "1".toList)) ||
      (eventName == .str "innertubeCommand".toList &&
        containsInterruptionMarker (payloadToText payload)) then
    (.swallowed, host,
      debug cfg clock "player_event_blocked".toList
        [("eventName".toList, .js eventName),
         ("payload".toList, .text (shortText (payloadToText payload) 280))] dbg)
  else
    let r := originalLR host this args
    (.forwarded r.1, r.2, dbg)

/-- The claim's reading of the swallow rule: the snackbar-message-id pattern, or a
payload whose serialized text carries an interruption marker, whatever the event. -/
def swallowsAsClaimed (eventName payload : JsValue) : Bool :=
  (eventName == .str "onSnackbarMessage".toList &&
      (payload == .num 1 || payload == .str "1".toList)) ||
    containsInterruptionMarker (payloadToText payload)

/-! ## The network layer -/

/-- The fields of a `Response` the wrapper reads. -/
structure Response where
  status : Int
  ok : Bool
  type : JsString
  deriving DecidableEq

/-- First argument of `fetch`: a string, or an object with optional `url` and
`method` properties, or nothing. -/
inductive FetchInput where
  | text (url : JsString)
  | request (url : Option JsString) (method : Option JsString)
  | missing
  deriving DecidableEq

/-- Second argument of `fetch`, when given: its optional `method`. -/
structure FetchInit where
  method : Option JsString
  deriving DecidableEq

/-- A `||` operand that is a string: an absent or empty one is falsy. -/
def truthyText (o : Option JsString) : Option JsString :=
  o.filter (fun s => !s.isEmpty)

/-- `typeof input === 'string' ? input : (input && input.url) || ''`. -/
def fetchUrl : FetchInput → JsString
  | .text url => url
  | .request url _ => (truthyText url).getD []
  | .missing => []

/-- `(init && init.method) || (input && input.method) || 'GET'`. -/
def fetchMethod (input : FetchInput) (init : Option FetchInit) : JsString :=
  let fromInit := truthyText (init.bind (fun i => i.method))
  let fromInput :=
    match input with
    | .request _ method => truthyText method
    | _ => none
  (fromInit.orElse (fun _ => fromInput)).getD "GET".toList

/-- What the promise returned by `patchedFetch` closes over, with the way the
promise of the original `fetch` settles. -/
structure PendingFetch (ε : Type) where
  shouldLog : Bool
  method : JsString
  url : JsString
  original : Except ε Response

/-- The synchronous part of `patchedFetch(input, init)`: the request is logged and
the original `fetch` is called with the same receiver and arguments. -/
def patchedFetch {σ τ ε : Type} (cfg : Settings) (clock : Int)
    (originalFetch : σ → τ → FetchInput → Option FetchInit → Except ε Response × σ)
    (this : τ) (input : FetchInput) (init : Option FetchInit)
    (host : σ) (dbg : DebugState) : PendingFetch ε × σ × DebugState :=
  let url := fetchUrl input
  let shouldLog := isInterestingRequest url
  let method := fetchMethod input init
  let dbg1 :=
    if shouldLog then
      debug cfg clock "fetch_request".toList
        [("method".toList, .text method), ("url".toList, .text (shortText url 260))] dbg
    else dbg
  let r := originalFetch host this input init
  ({ shouldLog := shouldLog, method := method, url := url, original := r.1 }, r.2, dbg1)

/-- The `.then(...).catch(...)` handlers of `patchedFetch`, run when the original
promise settles: the way the wrapper's promise settles, and the log. `errorText`
is `error && error.message ? error.message : String(error)`. -/
def patchedFetchSettle {ε : Type} (cfg : Settings) (clock : Int) (errorText : ε → JsString)
    (p : PendingFetch ε) (dbg : DebugState) : Except ε Response × DebugState :=
  match p.original with
  | .ok response =>
    (.ok response,
      if p.shouldLog then
        debug cfg clock "fetch_response".toList
          [("method".toList, .text p.method), ("url".toList, .text (shortText p.url 260)),
           ("status".toList, .int response.status), ("ok".toList, .flag response.ok),
           ("type".toList, .text response.type)] dbg
      else dbg)
  | .error error =>
    (.error error,
      if p.shouldLog then
        debug cfg clock "fetch_error".toList
          [("method".toList, .text p.method), ("url".toList, .text (shortText p.url 260)),
           ("error".toList, .text (shortText (errorText error) 220))] dbg
      else dbg)

/-! ## The document -/

/-- Element of the document: its identity and the identities of its ancestors. -/
structure NodeRef where
  node : Nat
  ancestors : List Nat
  deriving DecidableEq

/-- `element.isConnected` once the nodes of `removed` have been detached. -/
def isConnected (removed : List Nat) (e : NodeRef) : Bool :=
  !(removed.any (fun r => r == e.node || e.ancestors.contains r))

/-- Element matched by `button, [role="button"], yt-button-renderer,
tp-yt-paper-button` below a dialog. -/
structure Candidate where
  node : Nat
  textContent : JsString
  ariaLabel : Option JsString
  title : Option JsString
  clickIsFunction : Bool
  deriving DecidableEq

/-- Element matched by `DIALOG_SELECTORS`: its text, its `aria-label`, whether its
subtree has an anchor matching `a[href*="3037019"], a[href*="check_ad_blockers"]`,
and the action candidates of its subtree in document order. -/
structure Dialog where
  ref : NodeRef
  textContent : JsString
  ariaLabel : Option JsString
  hasSupportLink : Bool
  candidates : List Candidate
  deriving DecidableEq

/-- Anchor matched by `a[href*="3037019"], a[href*="check_ad_blockers"]`: its `href`
and the element `link.closest('tp-yt-paper-toast, yt-confirm-dialog-renderer,
tp-yt-paper-dialog, ytd-popup-container')`. -/
structure SupportLink where
  ref : NodeRef
  href : Option JsString
  host : Option NodeRef
  deriving DecidableEq

/-- The media element: what the script reads from it. -/
structure Video where
  ended : Bool
  currentTime : ℚ
  readyState : Nat
  networkState : Nat
  paused : Bool
  ytInterruptDebugBound : Bool
  deriving DecidableEq

/-- The page as one call of the script sees it. -/
structure Dom where
  pathname : JsString
  dialogs : List Dialog
  supportLinks : List SupportLink
  spinner : Bool
  video : Option Video
  player : Option Player
  deriving DecidableEq

/-- Calls the script makes on the host, in the order it makes them. -/
inductive Effect where
  | bindVideoDebugEvents
  | keepLactFresh
  | signalActivity
  | click (node : Nat)
  | dialogRemove (node : Nat)
  | hostRemove (node : Nat)
  | playVideo
  | videoPlay
  | setCurrentTime (t : ℚ)
  | seekTo (t : ℚ) (allowSeekAhead : Bool)
  deriving DecidableEq

/-- `playbackHealth`. -/
structure PlaybackHealth where
  lastTime : ℚ
  lastProgressAt : Int
  lastRecoveryAt : Int
  deriving DecidableEq

/-- The initial `playbackHealth` of a script loaded when the clock reads `loadedAt`. -/
def playbackHealth (loadedAt : Int) : PlaybackHealth :=
  { lastTime := -1, lastProgressAt := loadedAt, lastRecoveryAt := 0 }

/-- The state the script carries from call to call, with the trace of its calls on
the host. -/
structure State where
  playbackHealth : PlaybackHealth
  debug : DebugState
  effects : List Effect
  deriving DecidableEq

/-- `onWatchPage()`. -/
def onWatchPage (dom : Dom) : Bool :=
  startsWith dom.pathname WATCH_PATH

/-- The text `[dialog.textContent, dialog.getAttribute('aria-label')].join(' ')`. -/
def dialogText (dialog : Dialog) : JsString :=
  joinSpace [some dialog.textContent, dialog.ariaLabel]

/-- `findActionButton(dialog)`. -/
def findActionButton (dialog : Dialog) : Option Candidate :=
  dialog.candidates.find? (fun candidate =>
    hasAnyText (joinSpace [some candidate.textContent, candidate.ariaLabel, candidate.title])
      ACTION_TEXTS)

/-- `hasInterruptionUi()`. -/
def hasInterruptionUi (dom : Dom) : Bool :=
  dom.dialogs.any (fun dialog =>
    containsInterruptionMarker (dialogText dialog) || dialog.hasSupportLink)

/-- State of the loops of `clearInterruptDialogs`: the flag `handled`, the nodes
detached so far in this call, and the script state. -/
structure ClearState where
  handled : Bool
  removed : List Nat
  state : State
  deriving DecidableEq

/-- Body of the `for (const dialog of dialogs)` loop of `clearInterruptDialogs`. -/
def clearDialog (cfg : Settings) (clock : Int) (acc : ClearState) (dialog : Dialog) :
    ClearState :=
  let text := dialogText dialog
  let hasSupportLink := dialog.hasSupportLink
  let interruptionTextMatched := containsInterruptionMarker text
  if !hasSupportLink && !interruptionTextMatched then acc
  else
    match (findActionButton dialog).filter (fun button => button.clickIsFunction) with
    | some button =>
      { acc with
        handled := true
        state :=
          { acc.state with
            effects := acc.state.effects ++ [.click button.node]
            debug := debug cfg clock "dialog_action_clicked".toList
              [("text".toList, .text (shortText text 200))] acc.state.debug } }
    | none =>
      if isConnected acc.removed dialog.ref then
        { handled := true
          removed := acc.removed ++ [dialog.ref.node]
          state :=
            { acc.state with
              effects := acc.state.effects ++ [.dialogRemove dialog.ref.node]
              debug := debug cfg clock "dialog_removed".toList
                [("text".toList, .text (shortText text 200))] acc.state.debug } }
      else { acc with handled := true }

/-- Body of the `for (const link of links)` loop of `removeBySupportLink`. -/
def removeLinkHost (cfg : Settings) (clock : Int) (acc : ClearState) (link : SupportLink) :
    ClearState :=
  match link.host with
  | none => acc
  | some host =>
    if isConnected acc.removed host then
      { acc with
        removed := acc.removed ++ [host.node]
        state :=
          { acc.state with
            effects := acc.state.effects ++ [.hostRemove host.node]
            debug := debug cfg clock "dialog_removed_by_link".toList
              [("href".toList, .text (shortText (link.href.getD []) 220))] acc.state.debug } }
    else acc

/-- `removeBySupportLink()`: the query returns the anchors still in the document. -/
def removeBySupportLink (cfg : Settings) (clock : Int) (dom : Dom) (acc : ClearState) :
    ClearState :=
  let links := dom.supportLinks.filter (fun link => isConnected acc.removed link.ref)
  links.foldl (removeLinkHost cfg clock) acc

/-- The `for (const dialog of dialogs)` loop of `clearInterruptDialogs`. -/
def clearDialogs (cfg : Settings) (clock : Int) (dom : Dom) (st : State) : ClearState :=
  dom.dialogs.foldl (clearDialog cfg clock) { handled := false, removed := [], state := st }

/-- `clearInterruptDialogs()`: the value returned and the state afterwards. -/
def clearInterruptDialogs (cfg : Settings) (clock : Int) (dom : Dom) (st : State) :
    Bool × State :=
  let acc := removeBySupportLink cfg clock dom (clearDialogs cfg clock dom st)
  (acc.handled, acc.state)

/-- `bindVideoDebugEvents(video)`: listeners are bound once per element. -/
def bindVideoDebugEvents (video : Video) (st : State) : State :=
  if video.ytInterruptDebugBound then st
  else { st with effects := st.effects ++ [.bindVideoDebugEvents] }

/-- `TABLE[index] || index`, as logged. -/
def stateText (table : List JsString) (index : Nat) : LogValue :=
  match table.get? index with
  | some name => .text name
  | none => .int index

/-- The path by which a call of `recoverStuckPlayback` returned. -/
inductive Outcome where
  | skipped
  | progressed
  | notStuck
  | cooldown
  | recovered
  deriving DecidableEq

/-- `playerState`, as `recoverStuckPlayback` computes it:
`typeof player?.getPlayerState === 'function' ? player.getPlayerState() : -1`. -/
def playerState (dom : Dom) : Int :=
  (dom.player.bind (fun p => p.getPlayerState)).getD (-1)

/-- `buffering`, as `recoverStuckPlayback` computes it. -/
def buffering (dom : Dom) : Bool :=
  playerState dom == 3 || dom.spinner

/-- `likelyBlocked`, as `recoverStuckPlayback` computes it. -/
def likelyBlocked (dom : Dom) (video : Video) : Bool :=
  hasInterruptionUi dom || (buffering dom && decide (video.readyState ≤ 1))

/-- The steps of `recoverStuckPlayback` after `playbackHealth.lastRecoveryAt = now`. -/
def recoverySteps (cfg : Settings) (now : Int) (dom : Dom) (video : Video) (current : ℚ)
    (st : State) : State :=
  let st1 : State :=
    { st with
      debug := debug cfg now "recovery_attempt".toList
        [("currentTime".toList, .fixed3 current),
         ("readyState".toList, stateText READY_STATE_TEXT video.readyState),
         ("networkState".toList, stateText NETWORK_STATE_TEXT video.networkState),
         ("playerState".toList, .int (playerState dom)),
         ("hasInterruptionUi".toList, .flag (hasInterruptionUi dom))] st.debug }
  let st2 : State := { st1 with effects := st1.effects ++ [.keepLactFresh, .signalActivity] }
  let st3 := (clearInterruptDialogs cfg now dom st2).2
  let st4 : State :=
    if (dom.player.map (fun p => p.playVideo)).getD false then
      { st3 with effects := st3.effects ++ [.playVideo] }
    else st3
  let st5 : State :=
    if video.paused then { st4 with effects := st4.effects ++ [.videoPlay] } else st4
  let st6 : State :=
    if decide (video.readyState ≥ 2) && decide (current < 0.05) then
      { st5 with effects := st5.effects ++ [.setCurrentTime 0.05] }
    else st5
  if (dom.player.map (fun p => p.seekTo)).getD false && decide (video.readyState ≥ 2) &&
      decide (current < 0.1) then
    { st6 with effects := st6.effects ++ [.seekTo 0.05 true] }
  else st6

/-- `recoverStuckPlayback()`, called when `Date.now()` reads `now`: the path taken
and the state afterwards. -/
def recoverStuckPlayback (cfg : Settings) (now : Int) (dom : Dom) (st : State) :
    Outcome × State :=
  if !onWatchPage dom then (.skipped, st)
  else
    match dom.video with
    | none => (.skipped, st)
    | some video =>
      if video.ended then (.skipped, st)
      else
        let st0 := bindVideoDebugEvents video st
        let current := video.currentTime
        let progressed := decide (|current - st0.playbackHealth.lastTime| > 0.02)
        if progressed then
          (.progressed,
            { st0 with playbackHealth :=
                { st0.playbackHealth with lastTime := current, lastProgressAt := now } })
        else if !likelyBlocked dom video ||
            decide (now - st0.playbackHealth.lastProgressAt < STUCK_THRESHOLD_MS) then
          (.notStuck, st0)
        else if now - st0.playbackHealth.lastRecoveryAt < STUCK_THRESHOLD_MS then
          (.cooldown, st0)
        else
          let st1 : State :=
            { st0 with playbackHealth := { st0.playbackHealth with lastRecoveryAt := now } }
          (.recovered, recoverySteps cfg now dom video current st1)

/-- One call of `recoverStuckPlayback` per pair of a clock reading and a page, in
order: the paths taken and the final state. -/
def recoverStuckPlaybackCalls (cfg : Settings) :
    List (Int × Dom) → State → List Outcome × State
  | [], st => ([], st)
  | (now, dom) :: rest, st =>
    let r := recoverStuckPlayback cfg now dom st
    let rs := recoverStuckPlaybackCalls cfg rest r.2
    (r.1 :: rs.1, rs.2)

/-! ## Notions used to state the properties -/

/-- The action element `clearInterruptDialogs` clicks in a dialog: the result of
`findActionButton` when its `click` is a function. -/
def actionElement (dialog : Dialog) : Option Candidate :=
  (findActionButton dialog).filter (fun button => button.clickIsFunction)

/-- The dialog passes the guard of the loop of `clearInterruptDialogs`: it has a
support link or its text carries an interruption marker. -/
def isInterruptDialog (dialog : Dialog) : Bool :=
  dialog.hasSupportLink || containsInterruptionMarker (dialogText dialog)

/-- The call is one the loop over `dialogs` can make: a click on the action element
of one of them, or `dialog.remove()` on one that has no action element. -/
def DialogEffect (dialogs : List Dialog) (e : Effect) : Prop :=
  (∃ d ∈ dialogs, ∃ b, actionElement d = some b ∧ e = .click b.node) ∨
    (∃ d ∈ dialogs, actionElement d = none ∧ e = .dialogRemove d.ref.node)

/-- The position nudge: the assignment to `video.currentTime` or `player.seekTo`. -/
def isNudge : Effect → Bool
  | .setCurrentTime _ => true
  | .seekTo _ _ => true
  | _ => false

/-- The claim's reading of `likelyBlocked`: interruption UI is present, or the
player reports the buffering state (3) and `readyState` is below
`HAVE_CURRENT_DATA` (2). -/
def likelyBlockedAsClaimed (dom : Dom) (video : Video) : Bool :=
  hasInterruptionUi dom ||
    ((playerState dom == 3) && decide (video.readyState < 2))

/-- The clock readings of the calls of `recoverStuckPlaybackCalls` that took the
recovery path, in call order. -/
def recoveryTimes (cfg : Settings) : List (Int × Dom) → State → List Int
  | [], _ => []
  | (now, dom) :: rest, st =>
    let r := recoverStuckPlayback cfg now dom st
    if r.1 = .recovered then now :: recoveryTimes cfg rest r.2
    else recoveryTimes cfg rest r.2

/-- The positions read by the calls advance by `step` per call from `p` on: the
media element of the first page, when there is one, is at `p`, that of the next at
`p + step`, and so on. -/
def AdvancesBy (step : ℚ) : ℚ → List (Int × Dom) → Prop
  | _, [] => True
  | p, (_, dom) :: rest =>
    (∀ video, dom.video = some video → video.currentTime = p) ∧ AdvancesBy step (p + step) rest

/-- The calls the recovery steps append to the trace after the dialogs are cleared:
`player.playVideo()`, `video.play()`, the assignment to `video.currentTime` and
`player.seekTo`, each under its guard. -/
def resumeEffects (dom : Dom) (video : Video) (current : ℚ) : List Effect :=
  (if (dom.player.map (fun p => p.playVideo)).getD false then [.playVideo] else []) ++
    (if video.paused then [.videoPlay] else []) ++
    (if video.readyState ≥ 2 ∧ current < 0.05 then [.setCurrentTime 0.05] else []) ++
    (if (dom.player.map (fun p => p.seekTo)).getD false = true ∧ video.readyState ≥ 2 ∧
        current < 0.1 then [.seekTo 0.05 true] else [])

/-- The trace only grew, and only by bindings of the debug listeners. -/
def BindsOnly (before after : State) : Prop :=
  after.playbackHealth = before.playbackHealth ∧
    ∃ new, after.effects = before.effects ++ new ∧ ∀ e ∈ new, e = Effect.bindVideoDebugEvents

/-- The ticks of a scenario: `n` calls, `period` milliseconds apart from `start`
on, each seeing the page `dom`. -/
def ticks (start period : Int) (dom : Dom) (n : Nat) : List (Int × Dom) :=
  (List.range n).map (fun k => (start + period * k, dom))

/-! ## Concrete pages and states -/

/-- Settings with debugging enabled and storage available (the defaults). -/
def debugOn : Settings := { DEBUG := true, STORAGE := true }

/-- Settings with debugging disabled (`yt_interrupt_debug` stored as `0`). -/
def debugOff : Settings := { DEBUG := false, STORAGE := true }

/-- An empty diagnostic log. -/
def emptyLog : DebugState := { debugLogs := [], storageWriteCounter := 0, storedLogs := none }

/-- The state of a freshly loaded script. -/
def freshState (loadedAt : Int) : State :=
  { playbackHealth := playbackHealth loadedAt, debug := emptyLog, effects := [] }

/-- A media element stalled at 5 s with no data (`HAVE_NOTHING`). -/
def stalledVideo : Video :=
  { ended := false, currentTime := 5, readyState := 0, networkState := 2, paused := false,
    ytInterruptDebugBound := true }

/-- A player that reports the playing state (1), not buffering (3). -/
def playingPlayer : Player :=
  { LR := some .native, pauseVideo := some .native, getPlayerState := some 1,
    playVideo := true, seekTo := true, interruptPatchInstalled := true }

/-- A watch page without any dialog, whose `.ytp-spinner` element exists while the
player reports the playing state. -/
def spinnerPage : Dom :=
  { pathname := "/watch".toList, dialogs := [], supportLinks := [], spinner := true,
    video := some stalledVideo, player := some playingPlayer }

/-- A state whose last progress (at 5 s) and last recovery both date from time 0. -/
def stalledState : State :=
  { playbackHealth := { lastTime := 5, lastProgressAt := 0, lastRecoveryAt := 0 },
    debug := emptyLog, effects := [] }

/-- A button labelled `Continue`. -/
def continueButton : Candidate :=
  { node := 2, textContent := "Continue".toList, ariaLabel := none, title := none,
    clickIsFunction := true }

/-- An overlay whose text contains `playback interrupted`, with a `Continue` button. -/
def interruptedDialog : Dialog :=
  { ref := { node := 1, ancestors := [0] }
    textContent := "Playback interrupted Continue".toList
    ariaLabel := none
    hasSupportLink := false
    candidates := [continueButton] }

/-- A media element at `position` seconds that has data (`HAVE_ENOUGH_DATA`) and is
not paused. -/
def readyVideo (position : ℚ) : Video :=
  { ended := false, currentTime := position, readyState := 4, networkState := 1,
    paused := false, ytInterruptDebugBound := true }

/-- A watch page showing `interruptedDialog` over `readyVideo position`. -/
def interruptedPage (position : ℚ) : Dom :=
  { pathname := "/watch".toList
    dialogs := [interruptedDialog]
    supportLinks := []
    spinner := false
    video := some (readyVideo position)
    player := some playingPlayer }

/-- Three ticks one second apart on which the position reads 0, 0.5 and 1 s while
the overlay is shown. -/
def advancingTicks : List (Int × Dom) :=
  [(1000, interruptedPage 0), (2000, interruptedPage 0.5), (3000, interruptedPage 1)]

/-- The flags object `{check_user_lact_at_prompt_shown_time_on_web: true,
unrelated_flag: true}`. -/
def exampleFlags : JsObject :=
  [("check_user_lact_at_prompt_shown_time_on_web".toList, .bool true),
   ("unrelated_flag".toList, .bool true)]

/-- The flags object `{unrelated_flag: true}`, which owns no configured key. -/
def unrelatedFlags : JsObject :=
  [("unrelated_flag".toList, .bool true)]

/-- The entry `(key, false)` for a property whose key is in `keys`, the property
itself otherwise. -/
def forceFalse (keys : List JsString) (p : JsString × JsValue) : JsString × JsValue :=
  if keys.contains p.1 then (p.1, .bool false) else p

/-- An original dispatcher over a call counter: it counts the call and returns the
number of its arguments. -/
def countingDispatcher (calls : Nat) (_this : Unit) (args : List JsValue) : Nat × Nat :=
  (args.length, calls + 1)

/-- A call `LR('onStateChange', 'playback interrupted')`: the payload carries an
interruption marker, the event is neither `onSnackbarMessage` nor `innertubeCommand`. -/
def stateChangeArgs : List JsValue :=
  [.str "onStateChange".toList, .str "playback interrupted".toList]

/-- A call `LR('innertubeCommand', 'Experiencing interruptions?')`. -/
def commandArgs : List JsValue :=
  [.str "innertubeCommand".toList, .str "Experiencing interruptions?".toList]

/-- An original `fetch` over a call counter that resolves every request with a
response of status 200. -/
def resolvingFetch (calls : Nat) (_this : Unit) (_input : FetchInput)
    (_init : Option FetchInit) : Except JsString Response × Nat :=
  (.ok { status := 200, ok := true, type := "basic".toList }, calls + 1)

/-- A request for a `videoplayback` URL. -/
def videoplaybackRequest : FetchInput :=
  .text "https://rr1.googlevideo.com/videoplayback?id=1".toList

/-- An overlay whose text is `interruptions`, with a `Continue` button. -/
def interruptionsDialog : Dialog :=
  { ref := { node := 1, ancestors := [0] }
    textContent := "interruptions Continue".toList
    ariaLabel := none
    hasSupportLink := false
    candidates := [continueButton] }

/-- An overlay whose text is `Experiencing interruptions?`, with a `Continue` button. -/
def experiencingDialog : Dialog :=
  { ref := { node := 1, ancestors := [0] }
    textContent := "Experiencing interruptions? Continue".toList
    ariaLabel := none
    hasSupportLink := false
    candidates := [continueButton] }

/-- A watch page showing the one overlay `dialog`. -/
def overlayPage (dialog : Dialog) : Dom :=
  { pathname := "/watch".toList
    dialogs := [dialog]
    supportLinks := []
    spinner := false
    video := some (readyVideo 12)
    player := some playingPlayer }

/-- A page on which nothing is patched yet. -/
def unpatchedApis : NetworkApis :=
  { fetch := some .native, xhrOpen := .native, xhrSend := .native, networkPatchMark := false }

/-! ## Notions and inputs for the later scenarios -/

/-- The label `findActionButton` reads from a candidate:
`[textContent, aria-label, title].join(' ')`. -/
def candidateLabel (candidate : Candidate) : JsString :=
  joinSpace [some candidate.textContent, candidate.ariaLabel, candidate.title]

/-- The nodes a call of `clearInterruptDialogs` detached from the document, by
`dialog.remove()` or by `host.remove()`, in order. -/
def detachedBy (cfg : Settings) (clock : Int) (dom : Dom) (st : State) : List Nat :=
  (removeBySupportLink cfg clock dom (clearDialogs cfg clock dom st)).removed

/-- A button labelled `Dismiss`, which carries no affirmative-action phrase. -/
def dismissButton : Candidate :=
  { node := 3, textContent := "Dismiss".toList, ariaLabel := none, title := none,
    clickIsFunction := true }

/-- An overlay with a support link and a `Dismiss` button, whose text carries no
interruption marker. -/
def supportLinkDialog : Dialog :=
  { ref := { node := 1, ancestors := [0] }
    textContent := "Ad blockers violate the Terms of Service Dismiss".toList
    ariaLabel := none
    hasSupportLink := true
    candidates := [dismissButton] }

/-- A call `debug(type, payload)` made when the clock reads the first component. -/
abbrev DebugCall := Int × JsString × List (JsString × LogValue)

/-- The entry a call of `debug` appends. -/
def debugEntry (call : DebugCall) : DiagnosticEntry :=
  { atTime := call.1, type := call.2.1, payload := call.2.2 }

/-- A sequence of calls of `debug`, in order. -/
def debugCalls (cfg : Settings) (calls : List DebugCall) (st : DebugState) : DebugState :=
  calls.foldl (fun acc call => debug cfg call.1 call.2.1 call.2.2 acc) st

/-- Two calls of `debug`. -/
def twoDebugCalls : List DebugCall :=
  [(1, "init".toList, []), (2, "fetch_request".toList, [("method".toList, .text "GET".toList)])]

/-- A state whose last observed position is 0.07 s, with the last progress and the
last recovery dating from time 0. -/
def nearZeroState : State :=
  { playbackHealth := { lastTime := 0.07, lastProgressAt := 0, lastRecoveryAt := 0 },
    debug := emptyLog, effects := [] }

/-- A state whose last observed position is 0 s, with the last progress and the last
recovery dating from time 0. -/
def zeroState : State :=
  { playbackHealth := { lastTime := 0, lastProgressAt := 0, lastRecoveryAt := 0 },
    debug := emptyLog, effects := [] }

/-- `typeof player?.seekTo === 'function'`. -/
def seekToIsFunction (dom : Dom) : Bool :=
  (dom.player.map (fun p => p.seekTo)).getD false

/-! ## Lemmas on strings -/

theorem includes_iff (text needle : JsString) :
    includes text needle = true ↔ needle <:+: text := by
  simp [includes]

theorem lowerAt_plain (before after : List Char) (c : Char) (h : isPlain c = true) :
    lowerAt before c after = [lowerChar c] := by
  unfold isPlain at h
  simp only [Bool.and_eq_true, bne_iff_ne, ne_eq] at h
  unfold lowerAt
  rw [if_neg h.1, if_neg h.2]

theorem lowerAt_cases (before after : List Char) (c : Char) :
    (c = capitalIWithDot ∧ lowerAt before c after = ['i', combiningDotAbove]) ∨
    (c = capitalSigma ∧
      (lowerAt before c after = [finalSmallSigma] ∨ lowerAt before c after = [smallSigma])) ∨
    (isPlain c = true ∧ lowerAt before c after = [lowerChar c]) := by
  by_cases h1 : c = capitalIWithDot
  · exact Or.inl ⟨h1, by unfold lowerAt; rw [if_pos h1]⟩
  · by_cases h2 : c = capitalSigma
    · refine Or.inr (Or.inl ⟨h2, ?_⟩)
      unfold lowerAt
      rw [if_neg h1, if_pos h2]
      split
      · exact Or.inl rfl
      · exact Or.inr rfl
    · have hp : isPlain c = true := by
        unfold isPlain
        simp [h1, h2]
      exact Or.inr (Or.inr ⟨hp, lowerAt_plain before after c hp⟩)

theorem lowerFrom_plain_append (T : List Char) (h : ∀ c ∈ T, isPlain c = true) :
    ∀ (before rest : List Char),
      lowerFrom before (T ++ rest) = T.map lowerChar ++ lowerFrom (T.reverse ++ before) rest := by
  induction T with
  | nil =>
    intro before rest
    rfl
  | cons c T ih =>
    intro before rest
    have hc := h c (List.mem_cons_self _ _)
    have ht : ∀ x ∈ T, isPlain x = true := fun x hx => h x (List.mem_cons_of_mem _ hx)
    rw [List.cons_append, lowerFrom, lowerAt_plain _ _ c hc, ih ht]
    simp

theorem lowerFrom_append_exists (a : List Char) :
    ∀ (before rest : List Char),
      ∃ Z, lowerFrom before (a ++ rest) = Z ++ lowerFrom (a.reverse ++ before) rest := by
  induction a with
  | nil =>
    intro before rest
    exact ⟨[], rfl⟩
  | cons c a ih =>
    intro before rest
    obtain ⟨Z, hZ⟩ := ih (c :: before) rest
    refine ⟨lowerAt before c (a ++ rest) ++ Z, ?_⟩
    rw [List.cons_append, lowerFrom, hZ]
    simp

theorem toLowerCase_plain (T : JsString) (h : ∀ c ∈ T, isPlain c = true) :
    toLowerCase T = T.map lowerChar := by
  have := lowerFrom_plain_append T h [] []
  simpa [toLowerCase, lowerFrom] using this

theorem toLowerCase_infix {T S : JsString} (hplain : ∀ c ∈ T, isPlain c = true)
    (h : T <:+: S) : toLowerCase T <:+: toLowerCase S := by
  obtain ⟨a, b, rfl⟩ := h
  obtain ⟨Z, hZ⟩ := lowerFrom_append_exists a [] (T ++ b)
  have h2 := lowerFrom_plain_append T hplain (a.reverse ++ []) b
  refine ⟨Z, lowerFrom (T.reverse ++ (a.reverse ++ [])) b, ?_⟩
  rw [toLowerCase_plain T hplain]
  unfold toLowerCase
  rw [List.append_assoc a T b, hZ, h2, List.append_assoc]

theorem plain_of_lowerFrom (T : List Char) :
    ∀ before : List Char,
      (∀ x ∈ lowerFrom before T,
        x ≠ combiningDotAbove ∧ x ≠ smallSigma ∧ x ≠ finalSmallSigma) →
      ∀ c ∈ T, isPlain c = true := by
  induction T with
  | nil =>
    intro before _ c hc
    cases hc
  | cons d T ih =>
    intro before h c hc
    rw [lowerFrom] at h
    have hd : isPlain d = true := by
      rcases lowerAt_cases before T d with ⟨_, hl⟩ | ⟨_, hl | hl⟩ | ⟨hp, _⟩
      · exact absurd rfl (h combiningDotAbove (by rw [hl]; simp)).1
      · exact absurd rfl (h finalSmallSigma (by rw [hl]; simp)).2.2
      · exact absurd rfl (h smallSigma (by rw [hl]; simp)).2.1
      · exact hp
    rcases List.mem_cons.mp hc with hc | hc
    · rw [hc]
      exact hd
    · exact ih (d :: before) (fun x hx => h x (List.mem_append_right _ hx)) c hc

theorem lowerSafe_tail (p : Char) (P : JsString) (h : lowerSafe (p :: P) = true) :
    lowerSafe P = true ∧ p ≠ combiningDotAbove ∧ p ≠ smallSigma ∧ p ≠ finalSmallSigma ∧
      (P = [] → p ≠ 'i') := by
  unfold lowerSafe at h ⊢
  simp only [List.all_cons, Bool.and_eq_true, bne_iff_ne, ne_eq] at h
  obtain ⟨⟨⟨⟨hp1, hp2⟩, hp3⟩, hall⟩, hlast⟩ := h
  refine ⟨?_, hp1, hp2, hp3, ?_⟩
  · simp only [Bool.and_eq_true, bne_iff_ne, ne_eq]
    refine ⟨hall, ?_⟩
    cases P with
    | nil => simp
    | cons q Q =>
      rw [List.getLast?_cons_cons] at hlast
      exact hlast
  · intro hP hpi
    subst hP
    apply hlast
    rw [hpi]
    rfl

theorem prefix_lowerFrom (P : JsString) :
    ∀ (before S : List Char), lowerSafe P = true → P <+: lowerFrom before S →
      ∃ T, T <+: S ∧ (∀ c ∈ T, isPlain c = true) ∧ T.map lowerChar = P := by
  induction P with
  | nil =>
    intro before S _ _
    exact ⟨[], List.nil_prefix, by simp, rfl⟩
  | cons p P ih =>
    intro before S hsafe hpre
    obtain ⟨hsafeP, hp1, hp2, hp3, hlast⟩ := lowerSafe_tail p P hsafe
    cases S with
    | nil =>
      rw [lowerFrom] at hpre
      exact absurd (List.eq_nil_of_prefix_nil hpre) (by simp)
    | cons c rest =>
      rw [lowerFrom] at hpre
      rcases lowerAt_cases before rest c with ⟨_, hl⟩ | ⟨_, hl | hl⟩ | ⟨hplain, hl⟩
      · rw [hl] at hpre
        simp only [List.cons_append, List.nil_append] at hpre
        obtain ⟨hpi, hrest⟩ := List.cons_prefix_cons.mp hpre
        cases P with
        | nil => exact absurd hpi (hlast rfl)
        | cons q Q =>
          obtain ⟨hq, _⟩ := List.cons_prefix_cons.mp hrest
          have := (lowerSafe_tail q Q hsafeP).2.1
          exact absurd hq this
      · rw [hl] at hpre
        exact absurd (List.cons_prefix_cons.mp hpre).1 hp3
      · rw [hl] at hpre
        exact absurd (List.cons_prefix_cons.mp hpre).1 hp2
      · rw [hl] at hpre
        obtain ⟨hpc, hrest⟩ := List.cons_prefix_cons.mp hpre
        obtain ⟨T, hT, hTplain, hTmap⟩ := ih (c :: before) rest hsafeP hrest
        refine ⟨c :: T, List.cons_prefix_cons.mpr ⟨rfl, hT⟩, ?_, ?_⟩
        · intro x hx
          rcases List.mem_cons.mp hx with hx | hx
          · rw [hx]
            exact hplain
          · exact hTplain x hx
        · rw [List.map_cons, hTmap, hpc]

theorem infix_lowerFrom (P : JsString) (hne : P ≠ []) (hsafe : lowerSafe P = true)
    (S : List Char) :
    ∀ before : List Char, P <:+: lowerFrom before S →
      ∃ pre rest before2, S = pre ++ rest ∧ P <+: lowerFrom before2 rest := by
  have hhead : ∀ R : List Char, ¬ P <+: combiningDotAbove :: R := by
    cases P with
    | nil => exact absurd rfl hne
    | cons p P =>
      have hp := (lowerSafe_tail p P hsafe).2.1
      exact fun R h => hp (List.cons_prefix_cons.mp h).1
  induction S with
  | nil =>
    intro before h
    rw [lowerFrom] at h
    exact absurd (List.eq_nil_of_infix_nil h) hne
  | cons c rest ih =>
    intro before h
    have hstep : P <:+: lowerFrom (c :: before) rest →
        ∃ pre rest2 before2, c :: rest = pre ++ rest2 ∧ P <+: lowerFrom before2 rest2 := by
      intro h2
      obtain ⟨pre, rest2, before2, hsplit, hpre⟩ := ih (c :: before) h2
      exact ⟨c :: pre, rest2, before2, by rw [hsplit]; rfl, hpre⟩
    have hhere : P <+: lowerFrom before (c :: rest) →
        ∃ pre rest2 before2, c :: rest = pre ++ rest2 ∧ P <+: lowerFrom before2 rest2 :=
      fun h2 => ⟨[], c :: rest, before, rfl, h2⟩
    have hfull := h
    rw [lowerFrom] at h
    rcases lowerAt_cases before rest c with ⟨_, hl⟩ | ⟨_, hl | hl⟩ | ⟨_, hl⟩
    · rw [hl] at h
      simp only [List.cons_append, List.nil_append] at h
      rcases List.infix_cons_iff.mp h with h | h
      · apply hhere
        rw [lowerFrom, hl]
        exact h
      · rcases List.infix_cons_iff.mp h with h | h
        · exact absurd h (hhead _)
        · exact hstep h
    all_goals
      rw [hl] at h
      simp only [List.cons_append, List.nil_append] at h
      rcases List.infix_cons_iff.mp h with h | h
      · apply hhere
        rw [lowerFrom, hl]
        exact h
      · exact hstep h

theorem infix_toLowerCase {P S : JsString} (hne : P ≠ []) (hsafe : lowerSafe P = true)
    (h : P <:+: toLowerCase S) :
    ∃ T : JsString, T <:+: S ∧ toLowerCase T = P := by
  obtain ⟨pre, rest, before2, hsplit, hpre⟩ := infix_lowerFrom P hne hsafe S [] h
  obtain ⟨T, hT, hplain, hmap⟩ := prefix_lowerFrom P before2 rest hsafe hpre
  refine ⟨T, ?_, by rw [toLowerCase_plain T hplain, hmap]⟩
  obtain ⟨b, hb⟩ := hT
  exact ⟨pre, b, by rw [hsplit, ← hb, List.append_assoc]⟩

theorem lowerSafe_mem (P : JsString) (h : lowerSafe P = true) :
    ∀ x ∈ P, x ≠ combiningDotAbove ∧ x ≠ smallSigma ∧ x ≠ finalSmallSigma := by
  intro x hx
  unfold lowerSafe at h
  simp only [Bool.and_eq_true, List.all_eq_true, bne_iff_ne, ne_eq] at h
  exact ⟨(h.1 x hx).1.1, (h.1 x hx).1.2, (h.1 x hx).2⟩

theorem plain_of_toLowerCase (T P : JsString) (hsafe : lowerSafe P = true)
    (h : toLowerCase T = P) : ∀ c ∈ T, isPlain c = true := by
  apply plain_of_lowerFrom T []
  intro x hx
  apply lowerSafe_mem P hsafe
  rw [← h]
  exact hx

theorem markers_lower_fixed :
    ∀ P ∈ SUPPORT_CODE :: DIALOG_TEXTS, toLowerCase P = P ∧ P ≠ [] ∧ lowerSafe P = true := by
  decide

theorem containsInterruptionMarker_of_marker (S P : JsString)
    (hP : P ∈ SUPPORT_CODE :: DIALOG_TEXTS) (hc : ContainsAnyCase S P) :
    containsInterruptionMarker S = true := by
  obtain ⟨T, hT, hl⟩ := hc
  obtain ⟨hfix, hne, hsafe⟩ := markers_lower_fixed P hP
  rw [hfix] at hl
  have hin : P <:+: toLowerCase S := by
    have := toLowerCase_infix (plain_of_toLowerCase T P hsafe hl) hT
    rwa [hl] at this
  unfold containsInterruptionMarker
  simp only [lower]
  have hnonempty : (toLowerCase S).isEmpty = false := by
    cases hS : toLowerCase S with
    | nil =>
      rw [hS] at hin
      exact absurd (List.eq_nil_of_infix_nil hin) hne
    | cons _ _ => rfl
  rw [hnonempty]
  simp only [Bool.false_eq_true, if_false]
  split
  · rfl
  · rcases List.mem_cons.mp hP with h | h
    · subst h
      rename_i hc
      exact absurd ((includes_iff _ _).mpr hin) hc
    · exact List.any_eq_true.mpr ⟨P, h, (includes_iff _ _).mpr hin⟩

/-- C1: `containsInterruptionMarker(S)` is true exactly when `S` contains, in some
letter case, the support code `3037019` or one of the phrases of `DIALOG_TEXTS`;
so it is true for every string containing one of them and false for every string
containing none. -/
theorem containsInterruptionMarker_iff (S : JsString) :
    containsInterruptionMarker S = true ↔
      ∃ P ∈ SUPPORT_CODE :: DIALOG_TEXTS, ContainsAnyCase S P := by
  constructor
  · intro h
    unfold containsInterruptionMarker at h
    simp only [lower] at h
    split at h
    · exact absurd h (by simp)
    · split at h
      · rename_i hc
        obtain ⟨hfix, hne, hsafe⟩ := markers_lower_fixed SUPPORT_CODE (List.mem_cons_self _ _)
        obtain ⟨T, hT, hl⟩ := infix_toLowerCase hne hsafe ((includes_iff _ _).mp hc)
        refine ⟨SUPPORT_CODE, List.mem_cons_self _ _, T, hT, ?_⟩
        rw [hl, hfix]
      · obtain ⟨P, hP, hc⟩ := List.any_eq_true.mp h
        obtain ⟨hfix, hne, hsafe⟩ := markers_lower_fixed P (List.mem_cons_of_mem _ hP)
        obtain ⟨T, hT, hl⟩ := infix_toLowerCase hne hsafe ((includes_iff _ _).mp hc)
        refine ⟨P, List.mem_cons_of_mem _ hP, T, hT, ?_⟩
        rw [hl, hfix]
  · rintro ⟨P, hP, hc⟩
    exact containsInterruptionMarker_of_marker S P hP hc

/-! ## Lemmas on the health check -/

theorem bindVideoDebugEvents_playbackHealth (video : Video) (st : State) :
    (bindVideoDebugEvents video st).playbackHealth = st.playbackHealth := by
  unfold bindVideoDebugEvents
  split <;> rfl

theorem bindVideoDebugEvents_debug (video : Video) (st : State) :
    (bindVideoDebugEvents video st).debug = st.debug := by
  unfold bindVideoDebugEvents
  split <;> rfl

theorem bindVideoDebugEvents_effects (video : Video) (st : State) :
    (bindVideoDebugEvents video st).effects =
      st.effects ++ (if video.ytInterruptDebugBound then [] else [.bindVideoDebugEvents]) := by
  unfold bindVideoDebugEvents
  split <;> simp

theorem recoverStuckPlayback_skipped (cfg : Settings) (now : Int) (dom : Dom) (st : State)
    (h : onWatchPage dom = false ∨ dom.video = none ∨
      ∃ video, dom.video = some video ∧ video.ended = true) :
    recoverStuckPlayback cfg now dom st = (.skipped, st) := by
  unfold recoverStuckPlayback
  rcases h with h | h | ⟨video, hv, he⟩
  · simp [h]
  · simp [h]
  · simp [hv, he]

theorem recoverStuckPlayback_progressed (cfg : Settings) (now : Int) (dom : Dom) (st : State)
    (video : Video) (hw : onWatchPage dom = true) (hv : dom.video = some video)
    (he : video.ended = false)
    (hp : |video.currentTime - st.playbackHealth.lastTime| > 0.02) :
    recoverStuckPlayback cfg now dom st =
      (.progressed,
        { bindVideoDebugEvents video st with
          playbackHealth :=
            { lastTime := video.currentTime
              lastProgressAt := now
              lastRecoveryAt := st.playbackHealth.lastRecoveryAt } }) := by
  unfold recoverStuckPlayback
  simp [hw, hv, he, bindVideoDebugEvents_playbackHealth, hp]

theorem recoverStuckPlayback_notStuck (cfg : Settings) (now : Int) (dom : Dom) (st : State)
    (video : Video) (hw : onWatchPage dom = true) (hv : dom.video = some video)
    (he : video.ended = false)
    (hp : ¬ |video.currentTime - st.playbackHealth.lastTime| > 0.02)
    (hs : likelyBlocked dom video = false ∨
      now - st.playbackHealth.lastProgressAt < STUCK_THRESHOLD_MS) :
    recoverStuckPlayback cfg now dom st = (.notStuck, bindVideoDebugEvents video st) := by
  unfold recoverStuckPlayback
  have hs2 : (!likelyBlocked dom video ||
      decide (now - st.playbackHealth.lastProgressAt < STUCK_THRESHOLD_MS)) = true := by
    rcases hs with h | h
    · simp [h]
    · simp [h]
  simp only [hw, hv, he, bindVideoDebugEvents_playbackHealth, hp, hs2]
  simp

theorem recoverStuckPlayback_cooldown (cfg : Settings) (now : Int) (dom : Dom) (st : State)
    (video : Video) (hw : onWatchPage dom = true) (hv : dom.video = some video)
    (he : video.ended = false)
    (hp : ¬ |video.currentTime - st.playbackHealth.lastTime| > 0.02)
    (hb : likelyBlocked dom video = true)
    (hs : ¬ now - st.playbackHealth.lastProgressAt < STUCK_THRESHOLD_MS)
    (hc : now - st.playbackHealth.lastRecoveryAt < STUCK_THRESHOLD_MS) :
    recoverStuckPlayback cfg now dom st = (.cooldown, bindVideoDebugEvents video st) := by
  unfold recoverStuckPlayback
  simp only [hw, hv, he, bindVideoDebugEvents_playbackHealth, hp, hb, hs, hc]
  simp

theorem recoverStuckPlayback_recovered (cfg : Settings) (now : Int) (dom : Dom) (st : State)
    (video : Video) (hw : onWatchPage dom = true) (hv : dom.video = some video)
    (he : video.ended = false)
    (hp : ¬ |video.currentTime - st.playbackHealth.lastTime| > 0.02)
    (hb : likelyBlocked dom video = true)
    (hs : ¬ now - st.playbackHealth.lastProgressAt < STUCK_THRESHOLD_MS)
    (hc : ¬ now - st.playbackHealth.lastRecoveryAt < STUCK_THRESHOLD_MS) :
    recoverStuckPlayback cfg now dom st =
      (.recovered,
        recoverySteps cfg now dom video video.currentTime
          { bindVideoDebugEvents video st with
            playbackHealth :=
              { lastTime := st.playbackHealth.lastTime
                lastProgressAt := st.playbackHealth.lastProgressAt
                lastRecoveryAt := now } }) := by
  unfold recoverStuckPlayback
  simp only [hw, hv, he, bindVideoDebugEvents_playbackHealth, hp, hb, hs, hc]
  simp

/-! ## Lemmas on the dialog loops -/

theorem clearDialog_spec (cfg : Settings) (clock : Int) (acc : ClearState) (d : Dialog) :
    (clearDialog cfg clock acc d).state.playbackHealth = acc.state.playbackHealth ∧
    (clearDialog cfg clock acc d).handled = (acc.handled || isInterruptDialog d) ∧
    ∃ new, (clearDialog cfg clock acc d).state.effects = acc.state.effects ++ new ∧
      (∀ e ∈ new, DialogEffect [d] e) ∧
      (isInterruptDialog d = true → ∀ b, actionElement d = some b → .click b.node ∈ new) := by
  unfold clearDialog
  by_cases hq : isInterruptDialog d = true
  · have hq2 : (!d.hasSupportLink && !containsInterruptionMarker (dialogText d)) = false := by
      unfold isInterruptDialog at hq
      cases h1 : d.hasSupportLink <;> cases h2 : containsInterruptionMarker (dialogText d) <;>
        simp_all
    simp only [hq2, hq, Bool.or_true, Bool.false_eq_true, if_false]
    cases hb : actionElement d with
    | some b =>
      have hb2 : Option.filter (fun button => button.clickIsFunction) (findActionButton d) =
          some b := hb
      simp only [hb2]
      refine ⟨by trivial, by trivial, [.click b.node], rfl, ?_, ?_⟩
      · intro e he
        simp only [List.mem_singleton] at he
        exact Or.inl ⟨d, List.mem_singleton.mpr rfl, b, hb, he⟩
      · intro _ b2 hb3
        cases hb3
        simp
    | none =>
      have hb2 : Option.filter (fun button => button.clickIsFunction) (findActionButton d) =
          none := hb
      simp only [hb2]
      split
      · refine ⟨rfl, rfl, [.dialogRemove d.ref.node], rfl, ?_, ?_⟩
        · intro e he
          simp only [List.mem_singleton] at he
          exact Or.inr ⟨d, List.mem_singleton.mpr rfl, hb, he⟩
        · intro _ b2 hb3
          cases hb3
      · refine ⟨rfl, rfl, [], by simp, ?_, ?_⟩
        · intro e he
          cases he
        · intro _ b2 hb3
          cases hb3
  · have hq3 : isInterruptDialog d = false := by simpa using hq
    have hq2 : (!d.hasSupportLink && !containsInterruptionMarker (dialogText d)) = true := by
      unfold isInterruptDialog at hq3
      cases h1 : d.hasSupportLink <;> cases h2 : containsInterruptionMarker (dialogText d) <;>
        simp_all
    simp only [hq2, hq3, Bool.or_false, if_true]
    refine ⟨by trivial, by trivial, [], by simp, ?_, ?_⟩
    · intro e he
      cases he
    · intro h
      cases h

theorem DialogEffect.mono {ds ds2 : List Dialog} {e : Effect} (h : DialogEffect ds e)
    (hsub : ∀ d ∈ ds, d ∈ ds2) : DialogEffect ds2 e := by
  rcases h with ⟨d, hd, b, hb, he⟩ | ⟨d, hd, hb, he⟩
  · exact Or.inl ⟨d, hsub d hd, b, hb, he⟩
  · exact Or.inr ⟨d, hsub d hd, hb, he⟩

theorem clearDialog_foldl_spec (cfg : Settings) (clock : Int) (dialogs : List Dialog) :
    ∀ acc : ClearState,
    (dialogs.foldl (clearDialog cfg clock) acc).state.playbackHealth =
        acc.state.playbackHealth ∧
    (dialogs.foldl (clearDialog cfg clock) acc).handled =
        (acc.handled || dialogs.any isInterruptDialog) ∧
    ∃ new, (dialogs.foldl (clearDialog cfg clock) acc).state.effects =
        acc.state.effects ++ new ∧
      (∀ e ∈ new, DialogEffect dialogs e) ∧
      (∀ d ∈ dialogs, isInterruptDialog d = true →
        ∀ b, actionElement d = some b → .click b.node ∈ new) := by
  induction dialogs with
  | nil =>
    intro acc
    refine ⟨rfl, by simp, [], by simp, ?_, ?_⟩
    · intro e he
      cases he
    · intro d hd
      cases hd
  | cons d rest ih =>
    intro acc
    obtain ⟨h1, h2, new1, h3, h4, h5⟩ := clearDialog_spec cfg clock acc d
    obtain ⟨k1, k2, new2, k3, k4, k5⟩ := ih (clearDialog cfg clock acc d)
    simp only [List.foldl_cons]
    refine ⟨k1.trans h1, ?_, new1 ++ new2, ?_, ?_, ?_⟩
    · rw [k2, h2, List.any_cons, Bool.or_assoc]
    · rw [k3, h3, List.append_assoc]
    · intro e he
      rcases List.mem_append.mp he with he | he
      · exact (h4 e he).mono (by
          intro x hx
          rw [List.mem_singleton.mp hx]
          exact List.mem_cons_self _ _)
      · exact (k4 e he).mono (fun x hx => List.mem_cons_of_mem _ hx)
    · intro x hx hq b hb
      rcases List.mem_cons.mp hx with hx | hx
      · subst hx
        exact List.mem_append_left _ (h5 hq b hb)
      · exact List.mem_append_right _ (k5 x hx hq b hb)

theorem removeLinkHost_spec (cfg : Settings) (clock : Int) (acc : ClearState)
    (link : SupportLink) :
    (removeLinkHost cfg clock acc link).state.playbackHealth = acc.state.playbackHealth ∧
    (removeLinkHost cfg clock acc link).handled = acc.handled ∧
    ∃ new, (removeLinkHost cfg clock acc link).state.effects = acc.state.effects ++ new ∧
      ∀ e ∈ new, ∃ n, e = .hostRemove n := by
  unfold removeLinkHost
  cases link.host with
  | none => exact ⟨rfl, rfl, [], by simp, by simp⟩
  | some host =>
    simp only
    split
    · exact ⟨rfl, rfl, [.hostRemove host.node], rfl, by simp⟩
    · exact ⟨rfl, rfl, [], by simp, by simp⟩

theorem removeLinkHost_foldl_spec (cfg : Settings) (clock : Int) (links : List SupportLink) :
    ∀ acc : ClearState,
    (links.foldl (removeLinkHost cfg clock) acc).state.playbackHealth =
        acc.state.playbackHealth ∧
    (links.foldl (removeLinkHost cfg clock) acc).handled = acc.handled ∧
    ∃ new, (links.foldl (removeLinkHost cfg clock) acc).state.effects =
        acc.state.effects ++ new ∧
      ∀ e ∈ new, ∃ n, e = .hostRemove n := by
  induction links with
  | nil =>
    intro acc
    exact ⟨rfl, rfl, [], by simp, by simp⟩
  | cons link rest ih =>
    intro acc
    obtain ⟨h1, h2, new1, h3, h4⟩ := removeLinkHost_spec cfg clock acc link
    obtain ⟨k1, k2, new2, k3, k4⟩ := ih (removeLinkHost cfg clock acc link)
    simp only [List.foldl_cons]
    refine ⟨k1.trans h1, k2.trans h2, new1 ++ new2, ?_, ?_⟩
    · rw [k3, h3, List.append_assoc]
    · intro e he
      rcases List.mem_append.mp he with he | he
      · exact h4 e he
      · exact k4 e he

/-- What `clearInterruptDialogs` does: it returns whether some dialog passed the
guard, leaves `playbackHealth` alone, and appends to the trace the calls of the
dialog loop followed by the removals of `removeBySupportLink`. -/
theorem clearInterruptDialogs_spec (cfg : Settings) (clock : Int) (dom : Dom) (st : State) :
    (clearInterruptDialogs cfg clock dom st).2.playbackHealth = st.playbackHealth ∧
    (clearInterruptDialogs cfg clock dom st).1 = dom.dialogs.any isInterruptDialog ∧
    ∃ new1 new2, (clearInterruptDialogs cfg clock dom st).2.effects =
        st.effects ++ (new1 ++ new2) ∧
      (∀ e ∈ new1, DialogEffect dom.dialogs e) ∧
      (∀ e ∈ new2, ∃ n, e = .hostRemove n) ∧
      (∀ d ∈ dom.dialogs, isInterruptDialog d = true →
        ∀ b, actionElement d = some b → .click b.node ∈ new1) := by
  unfold clearInterruptDialogs removeBySupportLink clearDialogs
  obtain ⟨h1, h2, new1, h3, h4, h5⟩ := clearDialog_foldl_spec cfg clock dom.dialogs
    { handled := false, removed := [], state := st }
  obtain ⟨k1, k2, new2, k3, k4⟩ := removeLinkHost_foldl_spec cfg clock
    (dom.supportLinks.filter (fun link => isConnected
      (dom.dialogs.foldl (clearDialog cfg clock)
        { handled := false, removed := [], state := st }).removed link.ref))
    (dom.dialogs.foldl (clearDialog cfg clock) { handled := false, removed := [], state := st })
  refine ⟨k1.trans h1, ?_, new1, new2, ?_, h4, k4, h5⟩
  · simp only [k2, h2, Bool.false_or]
  · simp only [k3, h3, List.append_assoc]


/-- What the recovery steps do: `playbackHealth` is left alone, and the trace grows
by the activity signals, the calls of `clearInterruptDialogs` and the resume calls. -/
theorem recoverySteps_spec (cfg : Settings) (now : Int) (dom : Dom) (video : Video)
    (current : ℚ) (st : State) :
    (recoverySteps cfg now dom video current st).playbackHealth = st.playbackHealth ∧
    ∃ new1 new2, (recoverySteps cfg now dom video current st).effects =
        st.effects ++ ([.keepLactFresh, .signalActivity] ++ (new1 ++ new2) ++
          resumeEffects dom video current) ∧
      (∀ e ∈ new1, DialogEffect dom.dialogs e) ∧
      (∀ e ∈ new2, ∃ n, e = .hostRemove n) ∧
      (∀ d ∈ dom.dialogs, isInterruptDialog d = true →
        ∀ b, actionElement d = some b → .click b.node ∈ new1) := by
  obtain ⟨h1, _, new1, new2, h3, h4, h5, h6⟩ := clearInterruptDialogs_spec cfg now dom
    { playbackHealth := st.playbackHealth
      debug := debug cfg now "recovery_attempt".toList
        [("currentTime".toList, .fixed3 current),
         ("readyState".toList, stateText READY_STATE_TEXT video.readyState),
         ("networkState".toList, stateText NETWORK_STATE_TEXT video.networkState),
         ("playerState".toList, .int (playerState dom)),
         ("hasInterruptionUi".toList, .flag (hasInterruptionUi dom))] st.debug
      effects := st.effects ++ [.keepLactFresh, .signalActivity] }
  refine ⟨?_, new1, new2, ?_, h4, h5, h6⟩
  · unfold recoverySteps
    simp only
    split_ifs <;> exact h1
  · unfold recoverySteps resumeEffects
    simp only
    split_ifs <;> simp_all


/-! ## The stuck condition -/

theorem likelyBlocked_iff (dom : Dom) (video : Video) :
    likelyBlocked dom video = true ↔
      (hasInterruptionUi dom = true ∨
        ((playerState dom = 3 ∨ dom.spinner = true) ∧ video.readyState ≤ 1)) := by
  simp [likelyBlocked, buffering]

theorem recoverStuckPlayback_lastRecoveryAt (cfg : Settings) (now : Int) (dom : Dom)
    (st : State) :
    ((recoverStuckPlayback cfg now dom st).1 = .recovered →
      st.playbackHealth.lastRecoveryAt + STUCK_THRESHOLD_MS ≤ now ∧
      (recoverStuckPlayback cfg now dom st).2.playbackHealth.lastRecoveryAt = now) ∧
    ((recoverStuckPlayback cfg now dom st).1 ≠ .recovered →
      (recoverStuckPlayback cfg now dom st).2.playbackHealth.lastRecoveryAt =
        st.playbackHealth.lastRecoveryAt) := by
  by_cases hw : onWatchPage dom = true
  swap
  · rw [recoverStuckPlayback_skipped cfg now dom st (Or.inl (by simpa using hw))]
    simp
  cases hv : dom.video with
  | none =>
    rw [recoverStuckPlayback_skipped cfg now dom st (Or.inr (Or.inl hv))]
    simp
  | some video =>
    by_cases he : video.ended = true
    · rw [recoverStuckPlayback_skipped cfg now dom st (Or.inr (Or.inr ⟨video, hv, he⟩))]
      simp
    have he2 : video.ended = false := by simpa using he
    by_cases hp : |video.currentTime - st.playbackHealth.lastTime| > 0.02
    · rw [recoverStuckPlayback_progressed cfg now dom st video hw hv he2 hp]
      simp
    by_cases hb : likelyBlocked dom video = true
    swap
    · rw [recoverStuckPlayback_notStuck cfg now dom st video hw hv he2 hp
        (Or.inl (by simpa using hb))]
      simp [bindVideoDebugEvents_playbackHealth]
    by_cases hs : now - st.playbackHealth.lastProgressAt < STUCK_THRESHOLD_MS
    · rw [recoverStuckPlayback_notStuck cfg now dom st video hw hv he2 hp (Or.inr hs)]
      simp [bindVideoDebugEvents_playbackHealth]
    by_cases hc : now - st.playbackHealth.lastRecoveryAt < STUCK_THRESHOLD_MS
    · rw [recoverStuckPlayback_cooldown cfg now dom st video hw hv he2 hp hb hs hc]
      simp [bindVideoDebugEvents_playbackHealth]
    · rw [recoverStuckPlayback_recovered cfg now dom st video hw hv he2 hp hb hs hc]
      refine ⟨fun _ => ⟨by linarith, ?_⟩, fun h => absurd rfl h⟩
      rw [(recoverySteps_spec cfg now dom video video.currentTime _).1]

/-- C2 (amended): on a watch page with a media element that has not ended and whose
position did not progress, `recoverStuckPlayback` takes the recovery path exactly
when `likelyBlocked` holds and at least 8000 ms passed since the last progress and
since the last recovery, where `likelyBlocked` is: interruption UI is present, or
(the player reports the buffering state 3 or a `.ytp-spinner` element exists) and
`readyState` is at most 1; on that path `lastRecoveryAt` becomes `now` and the
recovery steps run. -/
theorem recoverStuckPlayback_recovers_iff (cfg : Settings) (now : Int) (dom : Dom)
    (st : State) (video : Video) (hw : onWatchPage dom = true)
    (hv : dom.video = some video) (he : video.ended = false)
    (hp : ¬ |video.currentTime - st.playbackHealth.lastTime| > 0.02) :
    ((recoverStuckPlayback cfg now dom st).1 = .recovered ↔
      (hasInterruptionUi dom = true ∨
          ((playerState dom = 3 ∨ dom.spinner = true) ∧ video.readyState ≤ 1)) ∧
        now - st.playbackHealth.lastProgressAt ≥ 8000 ∧
        now - st.playbackHealth.lastRecoveryAt ≥ 8000) ∧
    ((recoverStuckPlayback cfg now dom st).1 = .recovered →
      (recoverStuckPlayback cfg now dom st).2.playbackHealth.lastRecoveryAt = now ∧
      ∃ new, (recoverStuckPlayback cfg now dom st).2.effects = st.effects ++ new ∧
        Effect.keepLactFresh ∈ new ∧ Effect.signalActivity ∈ new) := by
  by_cases hb : likelyBlocked dom video = true
  swap
  · rw [recoverStuckPlayback_notStuck cfg now dom st video hw hv he hp
      (Or.inl (by simpa using hb))]
    rw [likelyBlocked_iff] at hb
    simp [hb]
  by_cases hs : now - st.playbackHealth.lastProgressAt < STUCK_THRESHOLD_MS
  · rw [recoverStuckPlayback_notStuck cfg now dom st video hw hv he hp (Or.inr hs)]
    have hs2 : ¬ now - st.playbackHealth.lastProgressAt ≥ 8000 := by
      unfold STUCK_THRESHOLD_MS at hs
      omega
    simp [hs2]
  by_cases hc : now - st.playbackHealth.lastRecoveryAt < STUCK_THRESHOLD_MS
  · rw [recoverStuckPlayback_cooldown cfg now dom st video hw hv he hp hb hs hc]
    have hc2 : ¬ now - st.playbackHealth.lastRecoveryAt ≥ 8000 := by
      unfold STUCK_THRESHOLD_MS at hc
      omega
    simp [hc2]
  · rw [recoverStuckPlayback_recovered cfg now dom st video hw hv he hp hb hs hc]
    obtain ⟨h1, new1, new2, h2, _⟩ := recoverySteps_spec cfg now dom video video.currentTime
      { bindVideoDebugEvents video st with
        playbackHealth :=
          { lastTime := st.playbackHealth.lastTime
            lastProgressAt := st.playbackHealth.lastProgressAt
            lastRecoveryAt := now } }
    unfold STUCK_THRESHOLD_MS at hs hc
    refine ⟨⟨fun _ => ⟨(likelyBlocked_iff dom video).mp hb, by omega, by omega⟩,
      fun _ => rfl⟩, fun _ => ⟨by rw [h1], ?_⟩⟩
    refine ⟨(if video.ytInterruptDebugBound then [] else [.bindVideoDebugEvents]) ++
      ([.keepLactFresh, .signalActivity] ++ (new1 ++ new2) ++
        resumeEffects dom video video.currentTime), ?_, ?_, ?_⟩
    · rw [h2]
      simp only [bindVideoDebugEvents_effects, List.append_assoc]
    · simp
    · simp

/-- C2 (witness): the amended statement at the stalled page with a spinner. -/
theorem recoverStuckPlayback_recovers_iff_witness :
    (onWatchPage spinnerPage = true ∧ spinnerPage.video = some stalledVideo ∧
      stalledVideo.ended = false ∧
      ¬ |stalledVideo.currentTime - stalledState.playbackHealth.lastTime| > 0.02) ∧
    (recoverStuckPlayback debugOn 8000 spinnerPage stalledState).1 = .recovered := by
  have hp : ¬ |stalledVideo.currentTime - stalledState.playbackHealth.lastTime| > 0.02 := by
    norm_num [stalledVideo, stalledState]
  refine ⟨⟨by decide, rfl, rfl, hp⟩, ?_⟩
  exact ((recoverStuckPlayback_recovers_iff debugOn 8000 spinnerPage stalledState stalledVideo
    (by decide) rfl rfl hp).1).mpr ⟨Or.inr (by decide), by decide, by decide⟩

/-- C2 (counterexample): with no interruption UI and a player that reports the
playing state, a `.ytp-spinner` element and `readyState` 0 suffice: recovery is
triggered although `likelyBlocked` as the claim defines it is false. -/
theorem recoverStuckPlayback_spinner_counterexample :
    (recoverStuckPlayback debugOn 8000 spinnerPage stalledState).1 = .recovered ∧
    likelyBlockedAsClaimed spinnerPage stalledVideo = false := by
  have hp : ¬ |stalledVideo.currentTime - stalledState.playbackHealth.lastTime| > 0.02 := by
    norm_num [stalledVideo, stalledState]
  refine ⟨?_, by decide⟩
  rw [recoverStuckPlayback_recovered debugOn 8000 spinnerPage stalledState stalledVideo
    (by decide) rfl rfl hp (by decide) (by decide) (by decide)]

/-! ## The cooldown -/

theorem recoveryTimes_chain (cfg : Settings) (calls : List (Int × Dom)) :
    ∀ st : State, List.Chain (fun t1 t2 : Int => t1 + STUCK_THRESHOLD_MS ≤ t2)
      st.playbackHealth.lastRecoveryAt (recoveryTimes cfg calls st) := by
  induction calls with
  | nil =>
    intro st
    exact List.Chain.nil
  | cons call rest ih =>
    intro st
    obtain ⟨now, dom⟩ := call
    obtain ⟨h1, h2⟩ := recoverStuckPlayback_lastRecoveryAt cfg now dom st
    unfold recoveryTimes
    simp only
    split
    · rename_i hr
      obtain ⟨h3, h4⟩ := h1 hr
      refine List.Chain.cons h3 ?_
      have := ih (recoverStuckPlayback cfg now dom st).2
      rwa [h4] at this
    · rename_i hr
      have := ih (recoverStuckPlayback cfg now dom st).2
      rwa [h2 hr] at this

/-- C3: over any sequence of calls of `recoverStuckPlayback` (in particular one
observed with a non-decreasing clock), whatever the pages and the initial state, two
calls that both trigger recovery have clock readings at least `STUCK_THRESHOLD_MS`
(8000 ms) apart, the first of them at least that long after the initial
`lastRecoveryAt`; and a call changes `lastRecoveryAt` only by setting it to `now`
when it triggers recovery. -/
theorem recovery_cooldown (cfg : Settings) (calls : List (Int × Dom)) (st : State) :
    List.Pairwise (fun t1 t2 : Int => t1 + 8000 ≤ t2)
      (st.playbackHealth.lastRecoveryAt :: recoveryTimes cfg calls st) ∧
    ∀ (now : Int) (dom : Dom) (st1 : State),
      (recoverStuckPlayback cfg now dom st1).2.playbackHealth.lastRecoveryAt =
        if (recoverStuckPlayback cfg now dom st1).1 = .recovered then now
        else st1.playbackHealth.lastRecoveryAt := by
  constructor
  · haveI : IsTrans Int (fun t1 t2 : Int => t1 + 8000 ≤ t2) :=
      ⟨fun a b c h1 h2 => by
        have k1 : a + 8000 ≤ b := h1
        have k2 : b + 8000 ≤ c := h2
        show a + 8000 ≤ c
        omega⟩
    exact List.chain_iff_pairwise.mp (recoveryTimes_chain cfg calls st)
  · intro now dom st1
    obtain ⟨h1, h2⟩ := recoverStuckPlayback_lastRecoveryAt cfg now dom st1
    split
    · rename_i hr
      exact (h1 hr).2
    · rename_i hr
      exact h2 hr


theorem recoveryTimes_eq_nil (cfg : Settings) (calls : List (Int × Dom)) :
    ∀ st : State, Outcome.recovered ∉ (recoverStuckPlaybackCalls cfg calls st).1 →
      recoveryTimes cfg calls st = [] := by
  induction calls with
  | nil =>
    intro st _
    rfl
  | cons call rest ih =>
    intro st h
    obtain ⟨now, dom⟩ := call
    simp only [recoverStuckPlaybackCalls, List.mem_cons, not_or] at h
    unfold recoveryTimes
    simp only
    rw [if_neg (fun hr => h.1 hr.symm)]
    exact ih _ h.2

/-! ## Progress -/

theorem advancing_no_recovery (cfg : Settings) (calls : List (Int × Dom)) :
    ∀ (st : State) (p : ℚ), st.playbackHealth.lastTime + 0.02 < p →
      AdvancesBy 0.5 p calls →
      Outcome.recovered ∉ (recoverStuckPlaybackCalls cfg calls st).1 ∧
      (recoverStuckPlaybackCalls cfg calls st).2.playbackHealth.lastRecoveryAt =
        st.playbackHealth.lastRecoveryAt ∧
      ∀ e ∈ (recoverStuckPlaybackCalls cfg calls st).2.effects,
        e ∈ st.effects ∨ e = .bindVideoDebugEvents := by
  induction calls with
  | nil =>
    intro st p _ _
    exact ⟨by simp [recoverStuckPlaybackCalls], rfl, fun e he => Or.inl he⟩
  | cons call rest ih =>
    intro st p hlt hadv
    obtain ⟨now, dom⟩ := call
    obtain ⟨hhead, htail⟩ := hadv
    have hskip : recoverStuckPlayback cfg now dom st = (.skipped, st) →
        Outcome.recovered ∉ (recoverStuckPlaybackCalls cfg ((now, dom) :: rest) st).1 ∧
        (recoverStuckPlaybackCalls cfg ((now, dom) :: rest) st).2.playbackHealth.lastRecoveryAt =
          st.playbackHealth.lastRecoveryAt ∧
        ∀ e ∈ (recoverStuckPlaybackCalls cfg ((now, dom) :: rest) st).2.effects,
          e ∈ st.effects ∨ e = .bindVideoDebugEvents := by
      intro hr
      obtain ⟨k1, k2, k3⟩ := ih st (p + 0.5) (by linarith [show (0:ℚ) < 0.5 by norm_num]) htail
      simp only [recoverStuckPlaybackCalls, hr, List.mem_cons, not_or]
      exact ⟨⟨by decide, k1⟩, k2, k3⟩
    by_cases hw : onWatchPage dom = true
    swap
    · exact hskip (recoverStuckPlayback_skipped cfg now dom st (Or.inl (by simpa using hw)))
    cases hv : dom.video with
    | none => exact hskip (recoverStuckPlayback_skipped cfg now dom st (Or.inr (Or.inl hv)))
    | some video =>
      by_cases he : video.ended = true
      · exact hskip (recoverStuckPlayback_skipped cfg now dom st
          (Or.inr (Or.inr ⟨video, hv, he⟩)))
      have he2 : video.ended = false := by simpa using he
      have hcur : video.currentTime = p := hhead video hv
      have hp : |video.currentTime - st.playbackHealth.lastTime| > 0.02 := by
        rw [hcur]
        exact lt_abs.mpr (Or.inl (by linarith))
      have hr := recoverStuckPlayback_progressed cfg now dom st video hw hv he2 hp
      obtain ⟨k1, k2, k3⟩ := ih (recoverStuckPlayback cfg now dom st).2 (p + 0.5)
        (by
          rw [hr]
          simp only [hcur]
          linarith [show (0.02:ℚ) < 0.5 by norm_num]) htail
      simp only [recoverStuckPlaybackCalls, List.mem_cons, not_or]
      refine ⟨⟨by rw [hr]; exact fun h => Outcome.noConfusion h, k1⟩, ?_, ?_⟩
      · rw [k2, hr]
      · intro e hmem
        rcases k3 e hmem with h | h
        · rw [hr] at h
          simp only [bindVideoDebugEvents_effects, List.mem_append] at h
          rcases h with h | h
          · exact Or.inl h
          · split at h
            · cases h
            · exact Or.inr (List.mem_singleton.mp h)
        · exact Or.inr h

/-- C4: whenever the position read by `recoverStuckPlayback` differs from
`playbackHealth.lastTime` by more than 0.02 s, whatever the health state, the page,
the player and the media element are, the call takes the progress path: it sets
`lastTime` and `lastProgressAt`, leaves `lastRecoveryAt` and the log unchanged, and
makes no call on the host other than binding the debug listeners of a media element
not yet bound. Consequently, over any sequence of calls whose positions advance by
0.5 s per call from a first position above the last observed one, no call triggers
recovery, `lastRecoveryAt` keeps its value and no recovery step is executed. -/
theorem progress_triggers_no_recovery :
    (∀ (cfg : Settings) (now : Int) (dom : Dom) (st : State) (video : Video),
      onWatchPage dom = true → dom.video = some video → video.ended = false →
      |video.currentTime - st.playbackHealth.lastTime| > 0.02 →
      recoverStuckPlayback cfg now dom st =
        (.progressed,
          { playbackHealth :=
              { lastTime := video.currentTime
                lastProgressAt := now
                lastRecoveryAt := st.playbackHealth.lastRecoveryAt }
            debug := st.debug
            effects := st.effects ++
              (if video.ytInterruptDebugBound then [] else [.bindVideoDebugEvents]) })) ∧
    (∀ (cfg : Settings) (calls : List (Int × Dom)) (st : State) (p : ℚ),
      st.playbackHealth.lastTime + 0.02 < p → AdvancesBy 0.5 p calls →
      Outcome.recovered ∉ (recoverStuckPlaybackCalls cfg calls st).1 ∧
      recoveryTimes cfg calls st = [] ∧
      (recoverStuckPlaybackCalls cfg calls st).2.playbackHealth.lastRecoveryAt =
        st.playbackHealth.lastRecoveryAt ∧
      ∀ e ∈ (recoverStuckPlaybackCalls cfg calls st).2.effects,
        e ∈ st.effects ∨ e = .bindVideoDebugEvents) := by
  constructor
  · intro cfg now dom st video hw hv he hp
    rw [recoverStuckPlayback_progressed cfg now dom st video hw hv he hp]
    simp only [bindVideoDebugEvents_debug, bindVideoDebugEvents_effects]
  · intro cfg calls st p hlt hadv
    obtain ⟨h1, h2, h3⟩ := advancing_no_recovery cfg calls st p hlt hadv
    exact ⟨h1, recoveryTimes_eq_nil cfg calls st h1, h2, h3⟩

/-- C4 (witness): three ticks at 0, 0.5 and 1 s while an interruption overlay is
shown, from the state of a freshly loaded script. -/
theorem progress_triggers_no_recovery_witness :
    ((freshState 0).playbackHealth.lastTime + 0.02 < 0 ∧ AdvancesBy 0.5 0 advancingTicks) ∧
    Outcome.recovered ∉ (recoverStuckPlaybackCalls debugOn advancingTicks (freshState 0)).1 ∧
    recoveryTimes debugOn advancingTicks (freshState 0) = [] := by
  have h1 : (freshState 0).playbackHealth.lastTime + 0.02 < 0 := by
    norm_num [freshState, playbackHealth]
  have h2 : AdvancesBy 0.5 0 advancingTicks := by
    simp only [advancingTicks, AdvancesBy, interruptedPage, readyVideo, Option.some.injEq,
      and_true]
    refine ⟨?_, ?_, ?_⟩ <;> intro video hv <;> subst hv <;> norm_num
  have h := progress_triggers_no_recovery.2 debugOn advancingTicks (freshState 0) 0 h1 h2
  exact ⟨⟨h1, h2⟩, h.1, h.2.1⟩


/-! ## Scenario A: a stalled position under an interruption overlay -/

theorem recoverStuckPlaybackCalls_append (cfg : Settings) (xs ys : List (Int × Dom)) :
    ∀ st : State, recoverStuckPlaybackCalls cfg (xs ++ ys) st =
      ((recoverStuckPlaybackCalls cfg xs st).1 ++
          (recoverStuckPlaybackCalls cfg ys (recoverStuckPlaybackCalls cfg xs st).2).1,
        (recoverStuckPlaybackCalls cfg ys (recoverStuckPlaybackCalls cfg xs st).2).2) := by
  induction xs with
  | nil =>
    intro st
    simp [recoverStuckPlaybackCalls]
  | cons x rest ih =>
    intro st
    obtain ⟨now, dom⟩ := x
    show recoverStuckPlaybackCalls cfg ((now, dom) :: (rest ++ ys)) st = _
    simp only [recoverStuckPlaybackCalls]
    rw [ih]
    simp

theorem recoveryTimes_append (cfg : Settings) (xs ys : List (Int × Dom)) :
    ∀ st : State, recoveryTimes cfg (xs ++ ys) st =
      recoveryTimes cfg xs st ++ recoveryTimes cfg ys (recoverStuckPlaybackCalls cfg xs st).2 := by
  induction xs with
  | nil =>
    intro st
    simp [recoverStuckPlaybackCalls, recoveryTimes]
  | cons x rest ih =>
    intro st
    obtain ⟨now, dom⟩ := x
    show recoveryTimes cfg ((now, dom) :: (rest ++ ys)) st = _
    simp only [recoverStuckPlaybackCalls, recoveryTimes]
    split <;> simp [ih]

theorem BindsOnly.refl (st : State) : BindsOnly st st :=
  ⟨rfl, [], by simp, by simp⟩

theorem BindsOnly.bind {before after : State} (h : BindsOnly before after) (video : Video) :
    BindsOnly before (bindVideoDebugEvents video after) := by
  obtain ⟨h1, new, h2, h3⟩ := h
  refine ⟨by rw [bindVideoDebugEvents_playbackHealth, h1],
    new ++ (if video.ytInterruptDebugBound then [] else [.bindVideoDebugEvents]), ?_, ?_⟩
  · rw [bindVideoDebugEvents_effects, h2, List.append_assoc]
  · intro e he
    rcases List.mem_append.mp he with he | he
    · exact h3 e he
    · split at he
      · cases he
      · exact List.mem_singleton.mp he

/-- A run of calls on one page during which the position stays at the last observed
one and less than the threshold has passed since the last progress: every call
returns as not stuck and only binds the debug listeners. -/
theorem stalled_calls_notStuck (cfg : Settings) (dom : Dom) (video : Video)
    (hw : onWatchPage dom = true) (hv : dom.video = some video) (he : video.ended = false)
    (calls : List (Int × Dom)) :
    ∀ st : State, ¬ |video.currentTime - st.playbackHealth.lastTime| > 0.02 →
      (∀ c ∈ calls, c.2 = dom ∧ c.1 - st.playbackHealth.lastProgressAt < STUCK_THRESHOLD_MS) →
      (recoverStuckPlaybackCalls cfg calls st).1 = calls.map (fun _ => Outcome.notStuck) ∧
      recoveryTimes cfg calls st = [] ∧
      BindsOnly st (recoverStuckPlaybackCalls cfg calls st).2 := by
  induction calls with
  | nil =>
    intro st _ _
    exact ⟨rfl, rfl, BindsOnly.refl st⟩
  | cons call rest ih =>
    intro st hp hall
    obtain ⟨now, d⟩ := call
    obtain ⟨hd, hs⟩ := hall (now, d) (List.mem_cons_self _ _)
    simp only at hd hs
    subst hd
    have hr := recoverStuckPlayback_notStuck cfg now d st video hw hv he hp (Or.inr hs)
    obtain ⟨k1, k2, k3⟩ := ih (bindVideoDebugEvents video st)
      (by rw [bindVideoDebugEvents_playbackHealth]; exact hp)
      (by
        intro c hc
        rw [bindVideoDebugEvents_playbackHealth]
        exact hall c (List.mem_cons_of_mem _ hc))
    simp only [recoverStuckPlaybackCalls, recoveryTimes, hr, List.map_cons]
    refine ⟨by rw [k1], ?_, ?_⟩
    · rw [if_neg (fun h => Outcome.noConfusion h)]
      exact k2
    · obtain ⟨m1, new, m2, m3⟩ := k3
      obtain ⟨n1, new0, n2, n3⟩ := (BindsOnly.refl st).bind video
      refine ⟨by rw [m1, n1], new0 ++ new, by rw [m2, n2, List.append_assoc], ?_⟩
      intro e hmem
      rcases List.mem_append.mp hmem with hmem | hmem
      · exact n3 e hmem
      · exact m3 e hmem

theorem ticks_nine (start : Int) (dom : Dom) :
    ticks start 1000 dom 9 =
      [(start, dom)] ++
        ([(start + 1000, dom), (start + 2000, dom), (start + 3000, dom), (start + 4000, dom),
          (start + 5000, dom), (start + 6000, dom), (start + 7000, dom)] ++
        [(start + 8000, dom)]) := by
  simp [ticks, List.range_succ]

theorem hasInterruptionUi_of_mem (dom : Dom) (dialog : Dialog) (hd : dialog ∈ dom.dialogs)
    (hq : isInterruptDialog dialog = true) : hasInterruptionUi dom = true := by
  unfold hasInterruptionUi
  refine List.any_eq_true.mpr ⟨dialog, hd, ?_⟩
  unfold isInterruptDialog at hq
  rw [Bool.or_comm]
  exact hq

theorem isInterruptDialog_of_text (dialog : Dialog) (P : JsString)
    (hP : P ∈ SUPPORT_CODE :: DIALOG_TEXTS) (hc : ContainsAnyCase dialog.textContent P) :
    isInterruptDialog dialog = true := by
  obtain ⟨T, hT, hl⟩ := hc
  have hT2 : T <:+: dialogText dialog := by
    obtain ⟨a, b, hab⟩ := hT
    refine ⟨a, b ++ (" ".toList ++ dialog.ariaLabel.getD []), ?_⟩
    simp [dialogText, joinSpace, List.intercalate, ← hab]
  have := containsInterruptionMarker_of_marker (dialogText dialog) P hP ⟨T, hT2, hl⟩
  simp [isInterruptDialog, this]


theorem recoverStuckPlaybackCalls_singleton (cfg : Settings) (now : Int) (dom : Dom)
    (st : State) :
    recoverStuckPlaybackCalls cfg [(now, dom)] st =
      ([(recoverStuckPlayback cfg now dom st).1], (recoverStuckPlayback cfg now dom st).2) := by
  simp [recoverStuckPlaybackCalls]

theorem recoveryTimes_singleton (cfg : Settings) (now : Int) (dom : Dom) (st : State) :
    recoveryTimes cfg [(now, dom)] st =
      if (recoverStuckPlayback cfg now dom st).1 = .recovered then [now] else [] := by
  simp only [recoveryTimes]

theorem resumeEffects_no_nudge (dom : Dom) (video : Video) (current : ℚ)
    (h : ¬ current < 0.1) : ∀ e ∈ resumeEffects dom video current, isNudge e = false := by
  have h2 : ¬ current < 0.05 := fun h3 => h (lt_trans h3 (by norm_num))
  intro e he
  unfold resumeEffects at he
  simp only [h, h2, and_false, if_false, List.append_nil] at he
  rcases List.mem_append.mp he with he | he
  · split at he
    · rw [List.mem_singleton.mp he]
      rfl
    · cases he
  · split at he
    · rw [List.mem_singleton.mp he]
      rfl
    · cases he

theorem DialogEffect.not_nudge {dialogs : List Dialog} {e : Effect}
    (h : DialogEffect dialogs e) : isNudge e = false := by
  rcases h with ⟨_, _, _, _, he⟩ | ⟨_, _, _, he⟩ <;> rw [he] <;> rfl

/-- C5 (scenario A): from the initial health state (`lastTime = -1`,
`lastRecoveryAt = 0`), nine calls of `recoverStuckPlayback` 1000 ms apart, starting
at a non-negative clock reading, on a watch page whose media element stays at
12.000 s and which shows an overlay containing `playback interrupted` with an action
element: the first call records progress, the next seven return as not stuck, and
the ninth, 8000 ms after the last progress, triggers recovery, so recovery is
triggered exactly once; the action element of the overlay is clicked, and neither
`video.currentTime` is assigned nor `player.seekTo` called. -/
theorem scenario_stalled_under_overlay (cfg : Settings) (loadedAt start : Int) (dom : Dom)
    (video : Video) (dialog : Dialog) (button : Candidate) (st : State)
    (hst : st.playbackHealth = playbackHealth loadedAt) (hstart : 0 ≤ start)
    (hw : onWatchPage dom = true) (hv : dom.video = some video) (he : video.ended = false)
    (hpos : video.currentTime = 12) (hd : dialog ∈ dom.dialogs)
    (htext : ContainsAnyCase dialog.textContent "playback interrupted".toList)
    (hb : actionElement dialog = some button) :
    (recoverStuckPlaybackCalls cfg (ticks start 1000 dom 9) st).1 =
      [.progressed, .notStuck, .notStuck, .notStuck, .notStuck, .notStuck, .notStuck,
        .notStuck, .recovered] ∧
    recoveryTimes cfg (ticks start 1000 dom 9) st = [start + 8000] ∧
    ∃ new, (recoverStuckPlaybackCalls cfg (ticks start 1000 dom 9) st).2.effects =
        st.effects ++ new ∧
      Effect.click button.node ∈ new ∧ ∀ e ∈ new, isNudge e = false := by
  have hq : isInterruptDialog dialog = true :=
    isInterruptDialog_of_text dialog _ (by decide) htext
  have hblocked : likelyBlocked dom video = true :=
    (likelyBlocked_iff dom video).mpr (Or.inl (hasInterruptionUi_of_mem dom dialog hd hq))
  rw [ticks_nine]
  simp only [recoverStuckPlaybackCalls_append, recoveryTimes_append,
    recoverStuckPlaybackCalls_singleton, recoveryTimes_singleton]
  -- the first call observes progress from the initial position -1
  have hp1 : |video.currentTime - st.playbackHealth.lastTime| > 0.02 := by
    rw [hpos, hst]
    norm_num [playbackHealth]
  have e1 := recoverStuckPlayback_progressed cfg start dom st video hw hv he hp1
  have hlra : st.playbackHealth.lastRecoveryAt = 0 := by rw [hst]; rfl
  rw [hlra] at e1
  have h1eff := bindVideoDebugEvents_effects video st
  generalize hs1 : ({ bindVideoDebugEvents video st with
      playbackHealth :=
        { lastTime := video.currentTime, lastProgressAt := start, lastRecoveryAt := 0 } } :
      State) = s1 at e1
  have h1health : s1.playbackHealth =
      { lastTime := video.currentTime, lastProgressAt := start, lastRecoveryAt := 0 } := by
    rw [← hs1]
  replace h1eff : s1.effects = st.effects ++
      (if video.ytInterruptDebugBound then [] else [.bindVideoDebugEvents]) := by
    rw [← hs1]
    exact h1eff
  simp only [e1]
  -- the next seven calls see no progress and less than 8000 ms without progress
  obtain ⟨m1, m2, m3, new8, m4, m5⟩ := stalled_calls_notStuck cfg dom video hw hv he
    [(start + 1000, dom), (start + 2000, dom), (start + 3000, dom), (start + 4000, dom),
      (start + 5000, dom), (start + 6000, dom), (start + 7000, dom)] s1
    (by rw [h1health]; norm_num)
    (by
      intro c hc
      rw [h1health]
      unfold STUCK_THRESHOLD_MS
      simp only [List.mem_cons, List.mem_singleton, List.not_mem_nil, or_false] at hc
      rcases hc with h | h | h | h | h | h | h <;> subst h <;>
        exact ⟨rfl, by simp only; omega⟩)
  simp only [m1, m2]
  generalize recoverStuckPlaybackCalls cfg
    [(start + 1000, dom), (start + 2000, dom), (start + 3000, dom), (start + 4000, dom),
      (start + 5000, dom), (start + 6000, dom), (start + 7000, dom)] s1 = r8 at m3 m4 ⊢
  -- the ninth call triggers recovery
  have e9 := recoverStuckPlayback_recovered cfg (start + 8000) dom r8.2 video hw hv he
    (by rw [m3, h1health]; norm_num) hblocked
    (by rw [m3, h1health]; unfold STUCK_THRESHOLD_MS; simp only; omega)
    (by rw [m3, h1health]; unfold STUCK_THRESHOLD_MS; simp only; omega)
  obtain ⟨_, new1, new2, g2, g3, g4, g5⟩ := recoverySteps_spec cfg (start + 8000) dom video
    video.currentTime
    { bindVideoDebugEvents video r8.2 with
      playbackHealth :=
        { lastTime := r8.2.playbackHealth.lastTime
          lastProgressAt := r8.2.playbackHealth.lastProgressAt
          lastRecoveryAt := start + 8000 } }
  simp only [e9]
  refine ⟨by simp, by simp, ?_⟩
  refine ⟨(if video.ytInterruptDebugBound then [] else [.bindVideoDebugEvents]) ++ new8 ++
    (if video.ytInterruptDebugBound then [] else [.bindVideoDebugEvents]) ++
    ([.keepLactFresh, .signalActivity] ++ (new1 ++ new2) ++
      resumeEffects dom video video.currentTime), ?_, ?_, ?_⟩
  · rw [g2]
    simp only [bindVideoDebugEvents_effects, m4, h1eff, List.append_assoc]
  · have := g5 dialog hd hq button hb
    simp only [List.mem_append]
    exact Or.inr (Or.inl (Or.inr (Or.inl this)))
  · intro e hmem
    simp only [List.mem_append] at hmem
    have hbind : ∀ e ∈ (if video.ytInterruptDebugBound then []
        else [Effect.bindVideoDebugEvents]), isNudge e = false := by
      intro e h
      split at h
      · cases h
      · rw [List.mem_singleton.mp h]
        rfl
    rcases hmem with ((h | h) | h) | (h | h | h) | h
    · exact hbind e h
    · rw [m5 e h]
      rfl
    · exact hbind e h
    · simp only [List.mem_cons, List.mem_singleton, List.not_mem_nil, or_false] at h
      rcases h with h | h <;> rw [h] <;> rfl
    · exact (g3 e h).not_nudge
    · obtain ⟨n, hn⟩ := g4 e h
      rw [hn]
      rfl
    · exact resumeEffects_no_nudge dom video video.currentTime (by rw [hpos]; norm_num) e h


/-- C5 (witness): scenario A on `interruptedPage 12`, first tick at clock reading
1000, from the state of a script loaded at 0. -/
theorem scenario_stalled_under_overlay_witness :
    ((freshState 0).playbackHealth = playbackHealth 0 ∧ (0 : Int) ≤ 1000 ∧
      onWatchPage (interruptedPage 12) = true ∧
      (interruptedPage 12).video = some (readyVideo 12) ∧ (readyVideo 12).ended = false ∧
      (readyVideo 12).currentTime = 12 ∧ interruptedDialog ∈ (interruptedPage 12).dialogs ∧
      ContainsAnyCase interruptedDialog.textContent "playback interrupted".toList ∧
      actionElement interruptedDialog = some continueButton) ∧
    (recoverStuckPlaybackCalls debugOn (ticks 1000 1000 (interruptedPage 12) 9)
        (freshState 0)).1 =
      [.progressed, .notStuck, .notStuck, .notStuck, .notStuck, .notStuck, .notStuck,
        .notStuck, .recovered] ∧
    recoveryTimes debugOn (ticks 1000 1000 (interruptedPage 12) 9) (freshState 0) = [9000] := by
  have htext : ContainsAnyCase interruptedDialog.textContent "playback interrupted".toList :=
    ⟨"Playback interrupted".toList, by decide, by decide⟩
  have hmem : interruptedDialog ∈ (interruptedPage 12).dialogs := List.mem_singleton.mpr rfl
  have hb : actionElement interruptedDialog = some continueButton := by decide
  have h := scenario_stalled_under_overlay debugOn 0 1000 (interruptedPage 12) (readyVideo 12)
    interruptedDialog continueButton (freshState 0) rfl (by decide) (by decide) rfl rfl rfl
    hmem htext hb
  exact ⟨⟨rfl, by decide, by decide, rfl, rfl, rfl, hmem, htext, hb⟩, h.1, h.2.1⟩


/-! ## Flags -/

theorem lookup_cons_eq (key k : JsString) (v : JsValue) (rest : JsObject) :
    List.lookup key ((k, v) :: rest) = if key = k then some v else List.lookup key rest := by
  by_cases h : key = k
  · subst h
    simp [List.lookup]
  · have h2 : (key == k) = false := by simpa using h
    simp [List.lookup, h2, h]

theorem hasOwnProperty_eq_lookup (o : JsObject) (key : JsString) :
    hasOwnProperty o key = (o.lookup key).isSome := by
  induction o with
  | nil => rfl
  | cons p rest ih =>
    obtain ⟨k, v⟩ := p
    unfold hasOwnProperty at ih ⊢
    rw [lookup_cons_eq, List.any_cons, ih]
    by_cases h : key = k
    · subst h
      simp
    · have h3 : (k == key) = false := by simpa using fun h4 : k = key => h h4.symm
      simp [h, h3]

theorem lookup_map_forceFalse (keys : List JsString) (o : JsObject) (key : JsString) :
    (o.map (forceFalse keys)).lookup key =
      if keys.contains key then (o.lookup key).map (fun _ => JsValue.bool false)
      else o.lookup key := by
  induction o with
  | nil => simp
  | cons p rest ih =>
    obtain ⟨k, v⟩ := p
    have hf : forceFalse keys (k, v) =
        (k, if keys.contains k then JsValue.bool false else v) := by
      unfold forceFalse
      split <;> rfl
    rw [List.map_cons, hf, lookup_cons_eq, lookup_cons_eq, ih]
    by_cases h : key = k
    · subst h
      by_cases hk : keys.contains key = true
      · simp only [hk, if_true, if_true]
        rfl
      · simp only [hk, if_true, if_false]
        simp
    · simp [h]

theorem forceFalse_cons_of_eq (key : JsString) (rest : List JsString) (p : JsString × JsValue) :
    forceFalse rest (if p.1 == key then (p.1, JsValue.bool false) else p) =
      forceFalse (key :: rest) p := by
  unfold forceFalse
  by_cases h : p.1 = key
  · simp [h]
  · have h2 : (p.1 == key) = false := by simpa using h
    simp [h2, h]

theorem disableFlagsLoop_fst (keys : List JsString) :
    ∀ (flags : JsObject) (changed : List JsString),
      (disableFlagsLoop keys flags changed).1 = flags.map (forceFalse keys) := by
  induction keys with
  | nil =>
    intro flags changed
    have hid : forceFalse [] = fun p => p := by
      funext p
      simp [forceFalse]
    rw [hid]
    simp [disableFlagsLoop]
  | cons key rest ih =>
    intro flags changed
    unfold disableFlagsLoop
    split
    · rename_i hown
      simp only [ih, setProp, hown, if_true, List.map_map]
      apply List.map_congr_left
      intro p _
      exact forceFalse_cons_of_eq key rest p
    · rename_i hown
      rw [ih]
      apply List.map_congr_left
      intro p hp
      have hne : p.1 ≠ key := by
        intro h
        apply hown
        unfold hasOwnProperty
        exact List.any_eq_true.mpr ⟨p, hp, by simp [h]⟩
      unfold forceFalse
      simp [hne]

/-- C6 (amended): after `disableFlags(flags)` every key of `FLAG_KEYS` that the
object owns is `false`, a key of `FLAG_KEYS` that the object does not own is not
added, and every key outside `FLAG_KEYS` keeps its value (or its absence); for
`{check_user_lact_at_prompt_shown_time_on_web: true, unrelated_flag: true}` the
result is `{check_user_lact_at_prompt_shown_time_on_web: false, unrelated_flag: true}`. -/
theorem disableFlags_effect (cfg : Settings) (clock : Int) (flags : JsObject)
    (dbg : DebugState) :
    (∃ after, (disableFlags cfg clock (some flags) dbg).1 = some after ∧
      (∀ key ∈ FLAG_KEYS, hasOwnProperty flags key = true →
        getProp after key = .bool false) ∧
      (∀ key ∈ FLAG_KEYS, hasOwnProperty flags key = false →
        hasOwnProperty after key = false) ∧
      (∀ key, key ∉ FLAG_KEYS → after.lookup key = flags.lookup key) ∧
      after.map Prod.fst = flags.map Prod.fst) ∧
    (disableFlags cfg clock (some exampleFlags) dbg).1 =
      some [("check_user_lact_at_prompt_shown_time_on_web".toList, .bool false),
            ("unrelated_flag".toList, .bool true)] := by
  constructor
  · refine ⟨flags.map (forceFalse FLAG_KEYS), ?_, ?_, ?_, ?_, ?_⟩
    · simp only [disableFlags, disableFlagsLoop_fst]
    · intro key hkey hown
      have hk : FLAG_KEYS.contains key = true := by simpa using hkey
      rw [hasOwnProperty_eq_lookup] at hown
      unfold getProp
      rw [lookup_map_forceFalse, hk, if_pos rfl]
      cases h : flags.lookup key with
      | none => rw [h] at hown; cases hown
      | some v => rfl
    · intro key hkey hown
      have hk : FLAG_KEYS.contains key = true := by simpa using hkey
      rw [hasOwnProperty_eq_lookup] at hown ⊢
      rw [lookup_map_forceFalse, hk, if_pos rfl]
      cases h : flags.lookup key with
      | none => rfl
      | some v => rw [h] at hown; cases hown
    · intro key hkey
      have hk : FLAG_KEYS.contains key = false := by simpa using hkey
      rw [lookup_map_forceFalse, hk]
      rfl
    · rw [List.map_map]
      apply List.map_congr_left
      intro p _
      unfold forceFalse
      simp only [Function.comp]
      split <;> rfl
  · simp only [disableFlags, disableFlagsLoop_fst]
    decide

/-- C6 (witness): on the example object the owned configured key
`check_user_lact_at_prompt_shown_time_on_web` reads `false` afterwards and
`unrelated_flag` keeps the entry it had. -/
theorem disableFlags_effect_witness :
    (hasOwnProperty exampleFlags "check_user_lact_at_prompt_shown_time_on_web".toList = true ∧
      "unrelated_flag".toList ∉ FLAG_KEYS) ∧
    ∃ after, (disableFlags debugOn 0 (some exampleFlags) emptyLog).1 = some after ∧
      getProp after "check_user_lact_at_prompt_shown_time_on_web".toList = .bool false ∧
      after.lookup "unrelated_flag".toList = some (.bool true) := by
  obtain ⟨after, h1, h2, _, h4, _⟩ := (disableFlags_effect debugOn 0 exampleFlags emptyLog).1
  refine ⟨⟨by decide, by decide⟩, after, h1, h2 _ (by decide) (by decide), ?_⟩
  rw [h4 _ (by decide)]
  decide

/-- C6 (counterexample): on `{unrelated_flag: true}` the configured key
`enable_time_out_messages` is not `false` after `disableFlags`: the object does not
own it and reading it still gives `undefined`. -/
theorem disableFlags_absent_key_counterexample :
    "enable_time_out_messages".toList ∈ FLAG_KEYS ∧
    (disableFlags debugOn 0 (some unrelatedFlags) emptyLog).1 = some unrelatedFlags ∧
    getProp unrelatedFlags "enable_time_out_messages".toList = JsValue.undefined ∧
    JsValue.undefined ≠ JsValue.bool false := by
  decide


/-! ## The player dispatcher -/

/-- C7 (amended): `patchedLR` swallows the call (the original dispatcher is not
called, the host state is unchanged, the wrapper returns) exactly when the event is
`onSnackbarMessage` with payload `1` or `'1'`, or the event is `innertubeCommand`
and the serialized payload satisfies `containsInterruptionMarker`; every other call
is forwarded to the original dispatcher with the same receiver and arguments, and
its result and its effect on the host are those of the original. -/
theorem patchedLR_swallows_iff {σ τ ρ : Type} (cfg : Settings) (clock : Int)
    (originalLR : σ → τ → List JsValue → ρ × σ) (this : τ) (args : List JsValue)
    (host : σ) (dbg : DebugState) :
    (((args.getD 0 .undefined = .str "onSnackbarMessage".toList ∧
          (args.getD 1 .undefined = .num 1 ∨ args.getD 1 .undefined = .str "1".toList)) ∨
        (args.getD 0 .undefined = .str "innertubeCommand".toList ∧
          containsInterruptionMarker (payloadToText (args.getD 1 .undefined)) = true)) →
      (patchedLR cfg clock originalLR this args host dbg).1 = .swallowed ∧
      (patchedLR cfg clock originalLR this args host dbg).2.1 = host) ∧
    (¬ ((args.getD 0 .undefined = .str "onSnackbarMessage".toList ∧
          (args.getD 1 .undefined = .num 1 ∨ args.getD 1 .undefined = .str "1".toList)) ∨
        (args.getD 0 .undefined = .str "innertubeCommand".toList ∧
          containsInterruptionMarker (payloadToText (args.getD 1 .undefined)) = true)) →
      patchedLR cfg clock originalLR this args host dbg =
        (.forwarded (originalLR host this args).1, (originalLR host this args).2, dbg)) := by
  constructor
  · intro h
    have hc : ((args.getD 0 .undefined == .str "onSnackbarMessage".toList &&
          (args.getD 1 .undefined == .num 1 || args.getD 1 .undefined == .str "1".toList)) ||
        (args.getD 0 .undefined == .str "innertubeCommand".toList &&
          containsInterruptionMarker (payloadToText (args.getD 1 .undefined)))) = true := by
      simpa using h
    unfold patchedLR
    simp only [hc, if_true, and_self]
  · intro h
    have hc : ((args.getD 0 .undefined == .str "onSnackbarMessage".toList &&
          (args.getD 1 .undefined == .num 1 || args.getD 1 .undefined == .str "1".toList)) ||
        (args.getD 0 .undefined == .str "innertubeCommand".toList &&
          containsInterruptionMarker (payloadToText (args.getD 1 .undefined)))) = false := by
      rw [← Bool.not_eq_true]
      intro hc
      apply h
      simpa using hc
    unfold patchedLR
    simp only [hc, Bool.false_eq_true, if_false]

/-- C7 (witness): an `innertubeCommand` whose payload carries a marker is swallowed,
and the counter of the original dispatcher stays at 0. -/
theorem patchedLR_swallows_iff_witness :
    (commandArgs.getD 0 .undefined = .str "innertubeCommand".toList ∧
      containsInterruptionMarker (payloadToText (commandArgs.getD 1 .undefined)) = true) ∧
    (patchedLR debugOn 0 countingDispatcher () commandArgs 0 emptyLog).1 = .swallowed ∧
    (patchedLR debugOn 0 countingDispatcher () commandArgs 0 emptyLog).2.1 = 0 :=
  ⟨by decide,
    (patchedLR_swallows_iff debugOn 0 countingDispatcher () commandArgs 0 emptyLog).1
      (Or.inr (by decide))⟩

/-- C7 (counterexample): the call `LR('onStateChange', 'playback interrupted')` has a
payload that satisfies `containsInterruptionMarker`, yet it is forwarded: the
original dispatcher runs (its counter goes from 0 to 1) and its result is returned. -/
theorem patchedLR_marker_other_event_counterexample :
    swallowsAsClaimed (stateChangeArgs.getD 0 .undefined) (stateChangeArgs.getD 1 .undefined)
      = true ∧
    patchedLR debugOn 0 countingDispatcher () stateChangeArgs 0 emptyLog =
      (.forwarded 2, 1, emptyLog) := by
  decide

/-! ## The network layer -/

theorem debug_getLast (cfg : Settings) (clock : Int) (type : JsString)
    (payload : List (JsString × LogValue)) (st : DebugState) (h : cfg.DEBUG = true) :
    (debug cfg clock type payload st).debugLogs.getLast? =
      some { atTime := clock, type := type, payload := payload } := by
  unfold debug
  simp only [h, Bool.not_true, Bool.false_eq_true, if_false]
  split
  · rw [List.getLast?_drop, if_neg, List.getLast?_concat]
    simp only [List.length_append, List.length_singleton, DEBUG_LOG_LIMIT]
    omega
  · exact List.getLast?_concat _

theorem debug_off (cfg : Settings) (clock : Int) (type : JsString)
    (payload : List (JsString × LogValue)) (st : DebugState) (h : cfg.DEBUG = false) :
    debug cfg clock type payload st = st := by
  unfold debug
  simp [h]

theorem isInterestingRequest_of_videoplayback (url : JsString)
    (h : "videoplayback".toList <:+: url) : isInterestingRequest url = true := by
  have h2 : "videoplayback".toList <:+: toLowerCase url := by
    have := toLowerCase_infix (T := "videoplayback".toList) (by decide) h
    rwa [show toLowerCase "videoplayback".toList = "videoplayback".toList by decide] at this
  unfold isInterestingRequest
  simp only [lower, (includes_iff _ _).mpr h2, Bool.true_or]

/-- C8 (amended): for every request, interesting or not, the promise of the patched
`fetch` settles as the promise of the original does (resolved with the same
response, or rejected with the same error), and the original is called with the
same receiver and arguments; when debugging is enabled, a request whose URL contains
`videoplayback` and that resolves with status 200 makes `debug` append a
`fetch_request` entry at the call and a `fetch_response` entry with status 200 at
the settlement. -/
theorem patchedFetch_passes_through {σ τ ε : Type} (cfg : Settings) (clock settledAt : Int)
    (errorText : ε → JsString)
    (originalFetch : σ → τ → FetchInput → Option FetchInit → Except ε Response × σ)
    (this : τ) (input : FetchInput) (init : Option FetchInit) (host : σ)
    (dbg later : DebugState) :
    ((patchedFetchSettle cfg settledAt errorText
        (patchedFetch cfg clock originalFetch this input init host dbg).1 later).1 =
      (originalFetch host this input init).1 ∧
    (patchedFetch cfg clock originalFetch this input init host dbg).2.1 =
      (originalFetch host this input init).2) ∧
    (cfg.DEBUG = true → "videoplayback".toList <:+: fetchUrl input →
      ∀ response, (originalFetch host this input init).1 = .ok response →
        response.status = 200 →
      (patchedFetch cfg clock originalFetch this input init host dbg).2.2.debugLogs.getLast? =
        some { atTime := clock, type := "fetch_request".toList,
               payload := [("method".toList, .text (fetchMethod input init)),
                           ("url".toList, .text (shortText (fetchUrl input) 260))] } ∧
      (patchedFetchSettle cfg settledAt errorText
          (patchedFetch cfg clock originalFetch this input init host dbg).1
          later).2.debugLogs.getLast? =
        some { atTime := settledAt, type := "fetch_response".toList,
               payload := [("method".toList, .text (fetchMethod input init)),
                           ("url".toList, .text (shortText (fetchUrl input) 260)),
                           ("status".toList, .int 200), ("ok".toList, .flag response.ok),
                           ("type".toList, .text response.type)] }) := by
  constructor
  · constructor
    · unfold patchedFetchSettle patchedFetch
      simp only
      cases (originalFetch host this input init).1 <;> rfl
    · rfl
  · intro hdebug hurl response hok hstatus
    have hlog := isInterestingRequest_of_videoplayback _ hurl
    constructor
    · unfold patchedFetch
      simp only [hlog, if_true]
      exact debug_getLast cfg clock _ _ dbg hdebug
    · unfold patchedFetchSettle patchedFetch
      simp only [hok, hlog, if_true, ← hstatus]
      exact debug_getLast cfg settledAt _ _ later hdebug

/-- C8 (witness): a `videoplayback` request resolved with status 200, debugging on. -/
theorem patchedFetch_passes_through_witness :
    (debugOn.DEBUG = true ∧ "videoplayback".toList <:+: fetchUrl videoplaybackRequest ∧
      (resolvingFetch 0 () videoplaybackRequest none).1 =
        .ok { status := 200, ok := true, type := "basic".toList }) ∧
    (patchedFetch debugOn 5 resolvingFetch () videoplaybackRequest none 0
        emptyLog).2.2.debugLogs.getLast? =
      some { atTime := 5, type := "fetch_request".toList,
             payload := [("method".toList, .text (fetchMethod videoplaybackRequest none)),
               ("url".toList, .text (shortText (fetchUrl videoplaybackRequest) 260))] } :=
  ⟨⟨rfl, by decide, rfl⟩,
    ((patchedFetch_passes_through debugOn 5 9 id resolvingFetch () videoplaybackRequest none 0
      emptyLog emptyLog).2 rfl (by decide) _ rfl rfl).1⟩

/-- C8 (counterexample): with debugging disabled, a request for a URL containing
`videoplayback` that resolves with status 200 logs nothing, neither at the call nor
at the settlement. -/
theorem patchedFetch_debug_off_counterexample :
    "videoplayback".toList <:+: fetchUrl videoplaybackRequest ∧
    (resolvingFetch 0 () videoplaybackRequest none).1 =
      .ok { status := 200, ok := true, type := "basic".toList } ∧
    (patchedFetch debugOff 5 resolvingFetch () videoplaybackRequest none 0
      emptyLog).2.2.debugLogs = [] ∧
    (patchedFetchSettle debugOff 9 id
      (patchedFetch debugOff 5 resolvingFetch () videoplaybackRequest none 0 emptyLog).1
      emptyLog).2.debugLogs = [] :=
  ⟨by decide, rfl, rfl, rfl⟩


/-! ## Idempotent installation -/

theorem iterate_of_idempotent {α : Type} (f : α → α) (h : ∀ x, f (f x) = f x) :
    ∀ N, 1 ≤ N → ∀ x, f^[N] x = f x := by
  intro N hN x
  induction N with
  | zero => omega
  | succ n ih =>
    rcases Nat.eq_zero_or_pos n with hn | hn
    · subst hn
      rfl
    · rw [Function.iterate_succ_apply', ih hn, h]

theorem patchNetworkApis_idem (w : NetworkApis) :
    patchNetworkApis (patchNetworkApis w) = patchNetworkApis w := by
  unfold patchNetworkApis
  split <;> simp_all

theorem patchPlayerApi_idem (player : Option Player) :
    patchPlayerApi (patchPlayerApi player) = patchPlayerApi player := by
  unfold patchPlayerApi
  cases player with
  | none => rfl
  | some p =>
    by_cases h : p.interruptPatchInstalled = true
    · simp [h]
    · simp [h]

theorem disableFlagsLoop_forced (K keys : List JsString) (hsub : ∀ key ∈ keys, key ∈ K) :
    ∀ (o : JsObject) (changed : List JsString),
      disableFlagsLoop keys (o.map (forceFalse K)) changed =
        (o.map (forceFalse K), changed) := by
  induction keys with
  | nil =>
    intro o changed
    rfl
  | cons key rest ih =>
    intro o changed
    have hK : K.contains key = true := by simpa using hsub key (List.mem_cons_self _ _)
    have hrest : ∀ k ∈ rest, k ∈ K := fun k hk => hsub k (List.mem_cons_of_mem _ hk)
    unfold disableFlagsLoop
    split
    · rename_i hown
      have hval : getProp (o.map (forceFalse K)) key = .bool false := by
        rw [hasOwnProperty_eq_lookup] at hown
        unfold getProp
        rw [lookup_map_forceFalse, hK, if_pos rfl] at hown ⊢
        cases h : o.lookup key with
        | none => rw [h] at hown; cases hown
        | some v => rfl
      have hset : setProp (o.map (forceFalse K)) key (.bool false) = o.map (forceFalse K) := by
        unfold setProp
        rw [if_pos hown, List.map_map]
        apply List.map_congr_left
        intro p _
        simp only [Function.comp]
        by_cases hp : K.contains p.1 = true
        · have hf : forceFalse K p = (p.1, .bool false) := by
            unfold forceFalse
            rw [if_pos hp]
          rw [hf]
          split <;> rfl
        · have hne : p.1 ≠ key := by
            intro h
            rw [h] at hp
            exact hp hK
          have hf : forceFalse K p = p := by
            unfold forceFalse
            rw [if_neg hp]
          have hb : (p.1 == key) = false := by simpa using hne
          rw [hf, hb]
          rfl
      simp only [hval, hset, bne_self_eq_false, Bool.false_eq_true, if_false]
      exact ih hrest o changed
    · exact ih hrest o changed

theorem disableFlags_idem (cfg : Settings) (clock later : Int) (flags : Option JsObject)
    (dbg dbg2 : DebugState) :
    disableFlags cfg later (disableFlags cfg clock flags dbg).1 dbg2 =
      ((disableFlags cfg clock flags dbg).1, dbg2) := by
  cases flags with
  | none => rfl
  | some o =>
    have h1 : (disableFlags cfg clock (some o) dbg).1 = some (o.map (forceFalse FLAG_KEYS)) := by
      simp only [disableFlags, disableFlagsLoop_fst]
    rw [h1]
    unfold disableFlags
    simp only
    rw [disableFlagsLoop_forced FLAG_KEYS FLAG_KEYS (fun _ h => h) o []]
    rfl

theorem patchYtConfig_idem (cfg : Settings) (clock later : Int) (ytcfg : Option Ytcfg)
    (dbg : DebugState) :
    patchYtConfig cfg later (patchYtConfig cfg clock ytcfg dbg).1
        (patchYtConfig cfg clock ytcfg dbg).2 =
      patchYtConfig cfg clock ytcfg dbg := by
  cases ytcfg with
  | none => rfl
  | some y =>
    obtain ⟨data, set, mark⟩ := y
    cases data with
    | none =>
      cases mark <;> cases set <;> simp [patchYtConfig]
    | some d =>
      cases mark <;> cases set <;>
        simp [patchYtConfig, disableFlags_idem]

theorem patchYtConfigTimes_eq (cfg : Settings) (clocks : List Int) :
    ∀ (clock : Int) (s : Option Ytcfg × DebugState),
      patchYtConfigTimes cfg (clock :: clocks) s = patchYtConfig cfg clock s.1 s.2 := by
  induction clocks with
  | nil =>
    intro clock s
    rfl
  | cons later rest ih =>
    intro clock s
    have h := ih later (patchYtConfig cfg clock s.1 s.2)
    unfold patchYtConfigTimes at h ⊢
    simp only [List.foldl_cons] at h ⊢
    rw [h]
    exact patchYtConfig_idem cfg clock later s.1 s.2

/-- C9: for each intercepted surface and every N ≥ 1, running the install routine N
times leaves the page as one run does: `patchNetworkApis` (fetch and the two
`XMLHttpRequest` methods), `patchYtConfig` (the flags, the `set` function and the
log, whatever the clock readings of the N runs) and `patchPlayerApi` (the dispatcher
and `pauseVideo`); on a surface not yet marked, what is left after the N runs is the
wrapper of the script around the function found at the first run, one layer. -/
theorem install_idempotent (N : Nat) (hN : 1 ≤ N) :
    (∀ w : NetworkApis, patchNetworkApis^[N] w = patchNetworkApis w) ∧
    (∀ w : NetworkApis, w.networkPatchMark = false →
      patchNetworkApis^[N] w =
        { fetch := w.fetch.map JsFunction.patchedFetch
          xhrOpen := .patchedXhrOpen w.xhrOpen
          xhrSend := .patchedXhrSend w.xhrSend
          networkPatchMark := true }) ∧
    (∀ (cfg : Settings) (clock : Int) (clocks : List Int) (s : Option Ytcfg × DebugState),
      clocks.length + 1 = N →
      patchYtConfigTimes cfg (clock :: clocks) s = patchYtConfig cfg clock s.1 s.2) ∧
    (∀ (cfg : Settings) (clock : Int) (clocks : List Int) (y : Ytcfg) (dbg : DebugState),
      clocks.length + 1 = N → y.interruptPatchInstalled = false →
      (patchYtConfigTimes cfg (clock :: clocks) (some y, dbg)).1.map (fun c => c.set) =
        some (y.set.map JsFunction.patchedSet)) ∧
    (∀ player : Option Player, patchPlayerApi^[N] player = patchPlayerApi player) ∧
    (∀ p : Player, p.interruptPatchInstalled = false →
      patchPlayerApi^[N] (some p) =
        some { p with
          LR := p.LR.map JsFunction.patchedLR
          pauseVideo := p.pauseVideo.map JsFunction.patchedPauseVideo
          interruptPatchInstalled := true }) := by
  refine ⟨?_, ?_, ?_, ?_, ?_, ?_⟩
  · exact iterate_of_idempotent patchNetworkApis patchNetworkApis_idem N hN
  · intro w hw
    rw [iterate_of_idempotent patchNetworkApis patchNetworkApis_idem N hN]
    simp [patchNetworkApis, hw]
  · intro cfg clock clocks s _
    exact patchYtConfigTimes_eq cfg clocks clock s
  · intro cfg clock clocks y dbg _ hy
    rw [patchYtConfigTimes_eq cfg clocks clock]
    obtain ⟨data, set, mark⟩ := y
    simp only at hy
    subst hy
    cases set <;> simp [patchYtConfig]
  · exact iterate_of_idempotent patchPlayerApi patchPlayerApi_idem N hN
  · intro p hp
    rw [iterate_of_idempotent patchPlayerApi patchPlayerApi_idem N hN]
    simp [patchPlayerApi, hp]

/-- C9 (witness): three installs of the network layer on an unpatched page leave one
`patchedFetch` around the native `fetch`. -/
theorem install_idempotent_witness :
    (1 ≤ 3 ∧ unpatchedApis.networkPatchMark = false) ∧
    (patchNetworkApis^[3] unpatchedApis).fetch = some (.patchedFetch .native) ∧
    ((patchNetworkApis^[3] unpatchedApis).fetch.map JsFunction.layers) = some 1 := by
  have h := (install_idempotent 3 (by decide)).2.1 unpatchedApis rfl
  refine ⟨⟨by decide, rfl⟩, ?_, ?_⟩
  · rw [h]
    rfl
  · rw [h]
    rfl


/-! ## Scenario C: an overlay with a Continue button -/

theorem findActionButton_of_continue (dialog : Dialog) (button : Candidate)
    (hbutton : button ∈ dialog.candidates)
    (hlabel : "Continue".toList <:+: button.textContent) :
    ∃ found, findActionButton dialog = some found ∧ found ∈ dialog.candidates ∧
      hasAnyText (candidateLabel found) ACTION_TEXTS = true ∧
      (dialog.candidates.head? = some button → found = button) := by
  have hmatch : hasAnyText (joinSpace [some button.textContent, button.ariaLabel, button.title])
      ACTION_TEXTS = true := by
    have h1 : "Continue".toList <:+:
        joinSpace [some button.textContent, button.ariaLabel, button.title] := by
      obtain ⟨a, b, hab⟩ := hlabel
      refine ⟨a, b ++ (" ".toList ++ (button.ariaLabel.getD [] ++
        (" ".toList ++ button.title.getD []))), ?_⟩
      simp [joinSpace, List.intercalate, ← hab]
    have h2 := toLowerCase_infix (T := "Continue".toList) (by decide) h1
    rw [show toLowerCase "Continue".toList = "continue".toList by decide] at h2
    unfold hasAnyText
    exact List.any_eq_true.mpr ⟨"continue".toList, by decide, (includes_iff _ _).mpr h2⟩
  unfold findActionButton
  cases hfind : dialog.candidates.find? (fun candidate =>
      hasAnyText (joinSpace [some candidate.textContent, candidate.ariaLabel, candidate.title])
        ACTION_TEXTS) with
  | none =>
    have := List.find?_eq_none.mp hfind button hbutton
    simp [hmatch] at this
  | some found =>
    have hl := List.find?_some hfind
    refine ⟨found, rfl, List.mem_of_find?_eq_some hfind, hl, ?_⟩
    intro hhead
    cases hc : dialog.candidates with
    | nil =>
      rw [hc] at hhead
      cases hhead
    | cons first rest =>
      rw [hc] at hhead hfind
      have hfirst : first = button := by
        simpa using hhead
      rw [hfirst, List.find?_cons, hmatch] at hfind
      exact (Option.some.inj hfind).symm

/-- C10 (amended): for an overlay selected by `DIALOG_SELECTORS` whose text contains
a phrase of `DIALOG_TEXTS` (such as `experiencing interruptions`) and which contains
a button labelled `Continue`, provided every candidate of the overlay with an
affirmative label has a `click()` method, `clearInterruptDialogs` finds the action
element (the first candidate with an affirmative label, which is the `Continue`
button when that is the first candidate of the overlay), clicks it, returns true,
and does not call `dialog.remove()` on the overlay; the overlays of the page are
distinct nodes. -/
theorem clearInterruptDialogs_clicks_action (cfg : Settings) (clock : Int) (dom : Dom)
    (st : State) (dialog : Dialog) (button : Candidate)
    (hd : dialog ∈ dom.dialogs)
    (hnodes : ∀ d ∈ dom.dialogs, d.ref.node = dialog.ref.node → d = dialog)
    (htext : ∃ P ∈ DIALOG_TEXTS, ContainsAnyCase dialog.textContent P)
    (hbutton : button ∈ dialog.candidates)
    (hlabel : "Continue".toList <:+: button.textContent)
    (hclick : ∀ c ∈ dialog.candidates,
      hasAnyText (candidateLabel c) ACTION_TEXTS = true → c.clickIsFunction = true) :
    ∃ found, findActionButton dialog = some found ∧ found ∈ dialog.candidates ∧
      hasAnyText (candidateLabel found) ACTION_TEXTS = true ∧
      (dialog.candidates.head? = some button → found = button) ∧
      (clearInterruptDialogs cfg clock dom st).1 = true ∧
      ∃ new, (clearInterruptDialogs cfg clock dom st).2.effects = st.effects ++ new ∧
        Effect.click found.node ∈ new ∧ Effect.dialogRemove dialog.ref.node ∉ new := by
  obtain ⟨found, hfound, hmem, hlab, hhead⟩ :=
    findActionButton_of_continue dialog button hbutton hlabel
  have haction : actionElement dialog = some found := by
    unfold actionElement
    rw [hfound]
    simp [Option.filter, hclick found hmem hlab]
  have hqd : isInterruptDialog dialog = true := by
    obtain ⟨P, hP, hc⟩ := htext
    exact isInterruptDialog_of_text dialog P (List.mem_cons_of_mem _ hP) hc
  obtain ⟨_, h2, new1, new2, h3, h4, h5, h6⟩ := clearInterruptDialogs_spec cfg clock dom st
  refine ⟨found, hfound, hmem, hlab, hhead, ?_, new1 ++ new2, h3, ?_, ?_⟩
  · rw [h2]
    exact List.any_eq_true.mpr ⟨dialog, hd, hqd⟩
  · exact List.mem_append_left _ (h6 dialog hd hqd found haction)
  · intro hrem
    rcases List.mem_append.mp hrem with hrem | hrem
    · rcases h4 _ hrem with ⟨_, _, _, _, he⟩ | ⟨d, hdm, hnone, he⟩
      · cases he
      · have hnode : d.ref.node = dialog.ref.node := by
          injection he with hn
          exact hn.symm
        rw [hnodes d hdm hnode, haction] at hnone
        cases hnone
    · obtain ⟨n, hn⟩ := h5 _ hrem
      cases hn

/-- C10 (witness): an overlay reading `Experiencing interruptions?` with a `Continue`
button: the button is found and clicked, the overlay is reported as handled and
`dialog.remove()` is not called on it. -/
theorem clearInterruptDialogs_clicks_action_witness :
    (experiencingDialog ∈ (overlayPage experiencingDialog).dialogs ∧
      (∃ P ∈ DIALOG_TEXTS, ContainsAnyCase experiencingDialog.textContent P) ∧
      continueButton ∈ experiencingDialog.candidates ∧
      "Continue".toList <:+: continueButton.textContent ∧
      (∀ c ∈ experiencingDialog.candidates,
        hasAnyText (candidateLabel c) ACTION_TEXTS = true → c.clickIsFunction = true)) ∧
    findActionButton experiencingDialog = some continueButton ∧
    (clearInterruptDialogs debugOn 0 (overlayPage experiencingDialog) (freshState 0)).1
      = true ∧
    ∃ new,
      (clearInterruptDialogs debugOn 0 (overlayPage experiencingDialog)
        (freshState 0)).2.effects = (freshState 0).effects ++ new ∧
      Effect.click continueButton.node ∈ new ∧
      Effect.dialogRemove experiencingDialog.ref.node ∉ new := by
  have hd : experiencingDialog ∈ (overlayPage experiencingDialog).dialogs :=
    List.mem_singleton.mpr rfl
  have htext : ∃ P ∈ DIALOG_TEXTS, ContainsAnyCase experiencingDialog.textContent P :=
    ⟨"experiencing interruptions".toList, by decide,
      "Experiencing interruptions".toList, by decide, by decide⟩
  have hb : continueButton ∈ experiencingDialog.candidates := List.mem_singleton.mpr rfl
  have hclick : ∀ c ∈ experiencingDialog.candidates,
      hasAnyText (candidateLabel c) ACTION_TEXTS = true → c.clickIsFunction = true := by
    intro c hc _
    rw [List.mem_singleton.mp hc]
    rfl
  obtain ⟨found, h1, _, _, h4, h5, new, h6, h7, h8⟩ :=
    clearInterruptDialogs_clicks_action debugOn 0
      (overlayPage experiencingDialog) (freshState 0) experiencingDialog continueButton hd
      (by
        intro d hdm _
        exact List.mem_singleton.mp hdm)
      htext hb (by decide) hclick
  have hfound : found = continueButton := h4 rfl
  rw [hfound] at h1 h7
  exact ⟨⟨hd, htext, hb, by decide, hclick⟩, h1, h5, new, h6, h7, h8⟩

/-- C10 (counterexample): an overlay whose text is `interruptions` with a `Continue`
button carries no interruption marker (`DIALOG_TEXTS` has `experiencing
interruptions`, not `interruptions`) and has no support link: `clearInterruptDialogs`
skips it, nothing is clicked, and the call returns false. -/
theorem clearInterruptDialogs_interruptions_counterexample :
    findActionButton interruptionsDialog = some continueButton ∧
    containsInterruptionMarker (dialogText interruptionsDialog) = false ∧
    (clearInterruptDialogs debugOn 0 (overlayPage interruptionsDialog) (freshState 0)).1
      = false ∧
    (clearInterruptDialogs debugOn 0 (overlayPage interruptionsDialog) (freshState 0)).2.effects
      = [] := by
  refine ⟨by decide, by decide, ?_, ?_⟩
  · rw [(clearInterruptDialogs_spec debugOn 0 (overlayPage interruptionsDialog)
      (freshState 0)).2.1]
    decide
  · have hskip : clearDialog debugOn 0
        { handled := false, removed := [], state := freshState 0 } interruptionsDialog =
        { handled := false, removed := [], state := freshState 0 } := by
      unfold clearDialog
      rw [if_pos (by decide)]
    simp only [clearInterruptDialogs, removeBySupportLink, clearDialogs, overlayPage,
      List.foldl_cons, List.foldl_nil, hskip, List.filter_nil]
    rfl


/-! ## Scenario D: an overlay with a support link and no action element -/

theorem isConnected_mono {removed later : List Nat} (e : NodeRef)
    (hsub : ∀ r ∈ removed, r ∈ later) (h : isConnected removed e = false) :
    isConnected later e = false := by
  unfold isConnected at h ⊢
  simp only [Bool.not_eq_false', List.any_eq_true] at h ⊢
  obtain ⟨r, hr, hcond⟩ := h
  exact ⟨r, hsub r hr, hcond⟩

theorem isConnected_append_self (removed : List Nat) (e : NodeRef) :
    isConnected (removed ++ [e.node]) e = false := by
  unfold isConnected
  simp only [Bool.not_eq_false', List.any_eq_true]
  exact ⟨e.node, List.mem_append_right _ (List.mem_singleton.mpr rfl), by simp⟩

theorem actionElement_eq_none_of_no_label (dialog : Dialog)
    (hno : ∀ c ∈ dialog.candidates, hasAnyText (candidateLabel c) ACTION_TEXTS = false) :
    findActionButton dialog = none ∧ actionElement dialog = none := by
  have h : findActionButton dialog = none := by
    unfold findActionButton
    refine List.find?_eq_none.mpr ?_
    intro c hc
    have := hno c hc
    unfold candidateLabel at this
    simp [this]
  exact ⟨h, by unfold actionElement; rw [h]; rfl⟩

theorem clearDialog_removed (cfg : Settings) (clock : Int) (acc : ClearState) (d : Dialog) :
    (∀ r ∈ acc.removed, r ∈ (clearDialog cfg clock acc d).removed) ∧
    (isInterruptDialog d = true → actionElement d = none →
      isConnected (clearDialog cfg clock acc d).removed d.ref = false) ∧
    ∃ new, (clearDialog cfg clock acc d).state.effects = acc.state.effects ++ new ∧
      ∀ r ∈ (clearDialog cfg clock acc d).removed,
        r ∈ acc.removed ∨ Effect.dialogRemove r ∈ new := by
  unfold clearDialog
  by_cases hq : isInterruptDialog d = true
  · have hq2 : (!d.hasSupportLink && !containsInterruptionMarker (dialogText d)) = false := by
      unfold isInterruptDialog at hq
      cases h1 : d.hasSupportLink <;> cases h2 : containsInterruptionMarker (dialogText d) <;>
        simp_all
    simp only [hq2, Bool.false_eq_true, if_false]
    cases hb : actionElement d with
    | some b =>
      have hb2 : Option.filter (fun button => button.clickIsFunction) (findActionButton d) =
          some b := hb
      simp only [hb2]
      refine ⟨fun r hr => hr, (fun _ h => by cases h), [.click b.node], rfl, ?_⟩
      intro r hr
      exact Or.inl hr
    | none =>
      have hb2 : Option.filter (fun button => button.clickIsFunction) (findActionButton d) =
          none := hb
      simp only [hb2]
      split
      · refine ⟨fun r hr => List.mem_append_left _ hr,
          fun _ _ => isConnected_append_self acc.removed d.ref,
          [.dialogRemove d.ref.node], rfl, ?_⟩
        intro r hr
        rcases List.mem_append.mp hr with hr | hr
        · exact Or.inl hr
        · rw [List.mem_singleton.mp hr]
          exact Or.inr (List.mem_singleton.mpr rfl)
      · rename_i hconn
        refine ⟨fun r hr => hr, (fun _ _ => by simpa using hconn), [], (by simp), ?_⟩
        intro r hr
        exact Or.inl hr
  · have hq3 : isInterruptDialog d = false := by simpa using hq
    have hq2 : (!d.hasSupportLink && !containsInterruptionMarker (dialogText d)) = true := by
      unfold isInterruptDialog at hq3
      cases h1 : d.hasSupportLink <;> cases h2 : containsInterruptionMarker (dialogText d) <;>
        simp_all
    simp only [hq2, if_true]
    refine ⟨fun r hr => hr, (fun h => absurd h hq), [], (by simp), ?_⟩
    intro r hr
    exact Or.inl hr

theorem clearDialog_foldl_removed (cfg : Settings) (clock : Int) (dialogs : List Dialog) :
    ∀ acc : ClearState,
    (∀ r ∈ acc.removed, r ∈ (dialogs.foldl (clearDialog cfg clock) acc).removed) ∧
    (∀ d ∈ dialogs, isInterruptDialog d = true → actionElement d = none →
      isConnected (dialogs.foldl (clearDialog cfg clock) acc).removed d.ref = false) ∧
    ∃ new, (dialogs.foldl (clearDialog cfg clock) acc).state.effects =
        acc.state.effects ++ new ∧
      ∀ r ∈ (dialogs.foldl (clearDialog cfg clock) acc).removed,
        r ∈ acc.removed ∨ Effect.dialogRemove r ∈ new := by
  induction dialogs with
  | nil =>
    intro acc
    refine ⟨fun r hr => hr, ?_, [], (by simp), fun r hr => Or.inl hr⟩
    intro d hd
    cases hd
  | cons d rest ih =>
    intro acc
    obtain ⟨h1, h2, new1, h3, h4⟩ := clearDialog_removed cfg clock acc d
    obtain ⟨k1, k2, new2, k3, k4⟩ := ih (clearDialog cfg clock acc d)
    simp only [List.foldl_cons]
    refine ⟨fun r hr => k1 r (h1 r hr), ?_, new1 ++ new2, ?_, ?_⟩
    · intro x hx hq hnone
      rcases List.mem_cons.mp hx with hx | hx
      · subst hx
        exact isConnected_mono x.ref k1 (h2 hq hnone)
      · exact k2 x hx hq hnone
    · rw [k3, h3, List.append_assoc]
    · intro r hr
      rcases k4 r hr with h | h
      · rcases h4 r h with h | h
        · exact Or.inl h
        · exact Or.inr (List.mem_append_left _ h)
      · exact Or.inr (List.mem_append_right _ h)

theorem removeLinkHost_foldl_removed (cfg : Settings) (clock : Int)
    (links : List SupportLink) :
    ∀ acc : ClearState, ∀ r ∈ acc.removed,
      r ∈ (links.foldl (removeLinkHost cfg clock) acc).removed := by
  induction links with
  | nil =>
    intro acc r hr
    exact hr
  | cons link rest ih =>
    intro acc r hr
    simp only [List.foldl_cons]
    apply ih
    unfold removeLinkHost
    cases link.host with
    | none => exact hr
    | some host =>
      simp only
      split
      · exact List.mem_append_left _ hr
      · exact hr


/-- C11 (scenario D): for every overlay selected by `DIALOG_SELECTORS` (connected
when the call starts) that contains a support link and no candidate whose label
carries an affirmative-action phrase, whatever its text is, `clearInterruptDialogs`
returns true and the overlay is detached from the document when the call ends: by
`dialog.remove()` on the overlay itself, or, for an overlay nested in another one,
on an ancestor handled earlier in the same call. -/
theorem clearInterruptDialogs_detaches_support_link_overlay (cfg : Settings) (clock : Int)
    (dom : Dom) (st : State) (dialog : Dialog)
    (hd : dialog ∈ dom.dialogs) (hlink : dialog.hasSupportLink = true)
    (hno : ∀ c ∈ dialog.candidates, hasAnyText (candidateLabel c) ACTION_TEXTS = false) :
    isConnected [] dialog.ref = true ∧
    (clearInterruptDialogs cfg clock dom st).1 = true ∧
    isConnected (detachedBy cfg clock dom st) dialog.ref = false ∧
    ∃ new, (clearInterruptDialogs cfg clock dom st).2.effects = st.effects ++ new ∧
      ∃ n ∈ dialog.ref.node :: dialog.ref.ancestors, Effect.dialogRemove n ∈ new := by
  have hq : isInterruptDialog dialog = true := by
    unfold isInterruptDialog
    rw [hlink, Bool.true_or]
  have hnone := (actionElement_eq_none_of_no_label dialog hno).2
  obtain ⟨_, h2, new, h3, h4⟩ := clearDialog_foldl_removed cfg clock dom.dialogs
    { handled := false, removed := [], state := st }
  have hdetached := h2 dialog hd hq hnone
  obtain ⟨_, k2, new1, new2, k3, _, _, _⟩ := clearInterruptDialogs_spec cfg clock dom st
  obtain ⟨_, _, newA, m3, _⟩ := clearDialog_foldl_spec cfg clock dom.dialogs
    { handled := false, removed := [], state := st }
  obtain ⟨_, _, newB, n3, _⟩ := removeLinkHost_foldl_spec cfg clock
    (dom.supportLinks.filter (fun link => isConnected
      (dom.dialogs.foldl (clearDialog cfg clock)
        { handled := false, removed := [], state := st }).removed link.ref))
    (dom.dialogs.foldl (clearDialog cfg clock) { handled := false, removed := [], state := st })
  refine ⟨rfl, ?_, ?_, new ++ newB, ?_, ?_⟩
  · rw [k2]
    exact List.any_eq_true.mpr ⟨dialog, hd, hq⟩
  · unfold detachedBy removeBySupportLink clearDialogs
    exact isConnected_mono dialog.ref
      (removeLinkHost_foldl_removed cfg clock _ _) hdetached
  · unfold clearInterruptDialogs removeBySupportLink clearDialogs
    simp only [n3, h3, List.append_assoc]
  · unfold isConnected at hdetached
    simp only [Bool.not_eq_false', List.any_eq_true, Bool.or_eq_true, beq_iff_eq]
      at hdetached
    obtain ⟨r, hr, hcase⟩ := hdetached
    have hrem : Effect.dialogRemove r ∈ new := by
      rcases h4 r hr with h | h
      · cases h
      · exact h
    refine ⟨r, ?_, List.mem_append_left _ hrem⟩
    rcases hcase with h | h
    · rw [h]
      exact List.mem_cons_self _ _
    · exact List.mem_cons_of_mem _ (by simpa using h)

/-- C11 (witness): an overlay with a support link, a `Dismiss` button and a text
without interruption marker is detached, and the call returns true. -/
theorem clearInterruptDialogs_detaches_support_link_overlay_witness :
    (supportLinkDialog ∈ (overlayPage supportLinkDialog).dialogs ∧
      supportLinkDialog.hasSupportLink = true ∧
      (∀ c ∈ supportLinkDialog.candidates,
        hasAnyText (candidateLabel c) ACTION_TEXTS = false) ∧
      containsInterruptionMarker (dialogText supportLinkDialog) = false) ∧
    (clearInterruptDialogs debugOn 0 (overlayPage supportLinkDialog) (freshState 0)).1 = true ∧
    isConnected (detachedBy debugOn 0 (overlayPage supportLinkDialog) (freshState 0))
      supportLinkDialog.ref = false := by
  have hd : supportLinkDialog ∈ (overlayPage supportLinkDialog).dialogs :=
    List.mem_singleton.mpr rfl
  have hno : ∀ c ∈ supportLinkDialog.candidates,
      hasAnyText (candidateLabel c) ACTION_TEXTS = false := by
    intro c hc
    rw [List.mem_singleton.mp hc]
    decide
  have h := clearInterruptDialogs_detaches_support_link_overlay debugOn 0
    (overlayPage supportLinkDialog) (freshState 0) supportLinkDialog hd rfl hno
  exact ⟨⟨hd, rfl, hno, by decide⟩, h.2.1, h.2.2.1⟩


/-! ## The bounded log buffer -/

theorem debug_debugLogs (cfg : Settings) (clock : Int) (type : JsString)
    (payload : List (JsString × LogValue)) (st : DebugState) (h : cfg.DEBUG = true) :
    (debug cfg clock type payload st).debugLogs =
      (st.debugLogs ++ [debugEntry (clock, type, payload)]).drop
        ((st.debugLogs ++ [debugEntry (clock, type, payload)]).length - DEBUG_LOG_LIMIT) := by
  unfold debug
  simp only [h, Bool.not_true, Bool.false_eq_true, if_false]
  split
  · rfl
  · rename_i hle
    have hz : (st.debugLogs ++ [debugEntry (clock, type, payload)]).length - DEBUG_LOG_LIMIT
        = 0 := Nat.sub_eq_zero_of_le (Nat.le_of_not_gt hle)
    rw [hz, List.drop_zero]
    rfl

theorem drop_append_drop {α : Type} (l : List α) (e : α) (limit : Nat) :
    ((l.drop (l.length - limit)) ++ [e]).drop
        (((l.drop (l.length - limit)) ++ [e]).length - limit) =
      (l ++ [e]).drop ((l ++ [e]).length - limit) := by
  have h1 : l.drop (l.length - limit) ++ [e] = (l ++ [e]).drop (l.length - limit) := by
    rw [List.drop_append_of_le_length (Nat.sub_le _ _)]
  rw [h1, List.drop_drop]
  congr 1
  simp only [List.length_drop, List.length_append, List.length_singleton]
  omega

theorem debugCalls_cons (cfg : Settings) (call : DebugCall) (rest : List DebugCall)
    (st : DebugState) :
    debugCalls cfg (call :: rest) st =
      debugCalls cfg rest (debug cfg call.1 call.2.1 call.2.2 st) := rfl

theorem debugCalls_debugLogs (cfg : Settings) (h : cfg.DEBUG = true) (calls : List DebugCall) :
    ∀ (st : DebugState) (history : List DiagnosticEntry),
      st.debugLogs = history.drop (history.length - DEBUG_LOG_LIMIT) →
      (debugCalls cfg calls st).debugLogs =
        (history ++ calls.map debugEntry).drop
          ((history ++ calls.map debugEntry).length - DEBUG_LOG_LIMIT) := by
  induction calls with
  | nil =>
    intro st history hst
    rw [List.map_nil, List.append_nil]
    exact hst
  | cons call rest ih =>
    intro st history hst
    have hstep : (debug cfg call.1 call.2.1 call.2.2 st).debugLogs =
        (history ++ [debugEntry call]).drop
          ((history ++ [debugEntry call]).length - DEBUG_LOG_LIMIT) := by
      rw [debug_debugLogs cfg _ _ _ st h, hst]
      exact drop_append_drop history (debugEntry call) DEBUG_LOG_LIMIT
    have := ih (debug cfg call.1 call.2.1 call.2.2 st) (history ++ [debugEntry call]) hstep
    rw [debugCalls_cons, this, List.map_cons, List.append_assoc, List.singleton_append]

/-- C12: with debugging enabled, after every call of `debug` the buffer `debugLogs`
holds at most `DEBUG_LOG_LIMIT` (400) entries, whatever it held before; and from an
empty buffer, after any sequence of k calls it holds exactly the last min(k, 400)
appended entries in append order: the list of all appended entries without its first
k - 400 ones when k exceeds 400. -/
theorem debugLogs_bounded (cfg : Settings) (h : cfg.DEBUG = true) :
    (∀ (clock : Int) (type : JsString) (payload : List (JsString × LogValue))
        (st : DebugState),
      (debug cfg clock type payload st).debugLogs.length ≤ 400 ∧
      (debug cfg clock type payload st).debugLogs.getLast? =
        some { atTime := clock, type := type, payload := payload }) ∧
    (∀ (calls : List DebugCall) (st : DebugState), st.debugLogs = [] →
      (debugCalls cfg calls st).debugLogs =
        (calls.map debugEntry).drop (calls.length - 400) ∧
      (debugCalls cfg calls st).debugLogs.length = min calls.length 400 ∧
      (debugCalls cfg calls st).debugLogs <:+ calls.map debugEntry) := by
  constructor
  · intro clock type payload st
    refine ⟨?_, debug_getLast cfg clock type payload st h⟩
    rw [debug_debugLogs cfg clock type payload st h]
    simp only [List.length_drop, List.length_append, List.length_singleton]
    have hlimit : DEBUG_LOG_LIMIT = 400 := rfl
    omega
  · intro calls st hst
    have hlogs : (debugCalls cfg calls st).debugLogs =
        (calls.map debugEntry).drop (calls.length - 400) := by
      have := debugCalls_debugLogs cfg h calls st [] (by rw [hst]; rfl)
      rw [List.nil_append, List.length_map] at this
      exact this
    refine ⟨hlogs, ?_, ?_⟩
    · rw [hlogs]
      simp only [List.length_drop, List.length_map]
      omega
    · rw [hlogs]
      exact List.drop_suffix _ _

/-- C12 (witness): two calls of `debug` on an empty buffer leave their two entries,
in call order, and 401 calls leave 400 entries. -/
theorem debugLogs_bounded_witness :
    (debugOn.DEBUG = true ∧ emptyLog.debugLogs = []) ∧
    (debugCalls debugOn twoDebugCalls emptyLog).debugLogs = twoDebugCalls.map debugEntry ∧
    (debugCalls debugOn twoDebugCalls emptyLog).debugLogs.length = 2 ∧
    (debugCalls debugOn (List.replicate 401 (0, "init".toList, [])) emptyLog).debugLogs.length
      = 400 := by
  have h := (debugLogs_bounded debugOn rfl).2 twoDebugCalls emptyLog rfl
  have h2 := ((debugLogs_bounded debugOn rfl).2
    (List.replicate 401 (0, "init".toList, [])) emptyLog rfl).2.1
  rw [List.length_replicate] at h2
  exact ⟨⟨rfl, rfl⟩, h.1, h.2.1, h2⟩


/-! ## The zero-position nudge -/

theorem recoverStuckPlayback_recovered_inv (cfg : Settings) (now : Int) (dom : Dom)
    (st : State) (video : Video) (hv : dom.video = some video)
    (hr : (recoverStuckPlayback cfg now dom st).1 = .recovered) :
    recoverStuckPlayback cfg now dom st =
      (.recovered,
        recoverySteps cfg now dom video video.currentTime
          { bindVideoDebugEvents video st with
            playbackHealth :=
              { lastTime := st.playbackHealth.lastTime
                lastProgressAt := st.playbackHealth.lastProgressAt
                lastRecoveryAt := now } }) := by
  by_cases hw : onWatchPage dom = true
  swap
  · rw [recoverStuckPlayback_skipped cfg now dom st (Or.inl (by simpa using hw))] at hr
    cases hr
  by_cases he : video.ended = true
  · rw [recoverStuckPlayback_skipped cfg now dom st (Or.inr (Or.inr ⟨video, hv, he⟩))] at hr
    cases hr
  have he2 : video.ended = false := by simpa using he
  by_cases hp : |video.currentTime - st.playbackHealth.lastTime| > 0.02
  · rw [recoverStuckPlayback_progressed cfg now dom st video hw hv he2 hp] at hr
    cases hr
  by_cases hb : likelyBlocked dom video = true
  swap
  · rw [recoverStuckPlayback_notStuck cfg now dom st video hw hv he2 hp
      (Or.inl (by simpa using hb))] at hr
    cases hr
  by_cases hs : now - st.playbackHealth.lastProgressAt < STUCK_THRESHOLD_MS
  · rw [recoverStuckPlayback_notStuck cfg now dom st video hw hv he2 hp (Or.inr hs)] at hr
    cases hr
  by_cases hc : now - st.playbackHealth.lastRecoveryAt < STUCK_THRESHOLD_MS
  · rw [recoverStuckPlayback_cooldown cfg now dom st video hw hv he2 hp hb hs hc] at hr
    cases hr
  · exact recoverStuckPlayback_recovered cfg now dom st video hw hv he2 hp hb hs hc

theorem setCurrentTime_mem_resumeEffects (dom : Dom) (video : Video) (current t : ℚ) :
    Effect.setCurrentTime t ∈ resumeEffects dom video current ↔
      t = 0.05 ∧ video.readyState ≥ 2 ∧ current < 0.05 := by
  unfold resumeEffects
  simp only [List.mem_append]
  constructor
  · rintro (((h | h) | h) | h)
    · split at h <;> simp at h
    · split at h <;> simp at h
    · split at h
      · rename_i hc
        simp only [List.mem_singleton, Effect.setCurrentTime.injEq] at h
        exact ⟨h, hc⟩
      · cases h
    · split at h <;> simp at h
  · rintro ⟨ht, hc⟩
    refine Or.inl (Or.inr ?_)
    rw [if_pos hc, ht]
    exact List.mem_singleton.mpr rfl

theorem seekTo_mem_resumeEffects (dom : Dom) (video : Video) (current t : ℚ) (a : Bool) :
    Effect.seekTo t a ∈ resumeEffects dom video current ↔
      (t = 0.05 ∧ a = true) ∧ seekToIsFunction dom = true ∧ video.readyState ≥ 2 ∧
        current < 0.1 := by
  unfold resumeEffects seekToIsFunction
  simp only [List.mem_append]
  constructor
  · rintro (((h | h) | h) | h)
    · split at h <;> simp at h
    · split at h <;> simp at h
    · split at h <;> simp at h
    · split at h
      · rename_i hc
        simp only [List.mem_singleton, Effect.seekTo.injEq] at h
        exact ⟨h, hc⟩
      · cases h
  · rintro ⟨⟨ht, ha⟩, hc⟩
    refine Or.inr ?_
    rw [if_pos hc, ht, ha]
    exact List.mem_singleton.mpr rfl

theorem isNudge_mem_resumeEffects (dom : Dom) (video : Video) (current : ℚ) (e : Effect)
    (he : e ∈ resumeEffects dom video current) (hn : isNudge e = true) :
    e = .setCurrentTime 0.05 ∨ e = .seekTo 0.05 true := by
  cases e with
  | setCurrentTime t =>
    rw [((setCurrentTime_mem_resumeEffects dom video current t).mp he).1]
    exact Or.inl rfl
  | seekTo t a =>
    obtain ⟨⟨ht, ha⟩, _⟩ := (seekTo_mem_resumeEffects dom video current t a).mp he
    rw [ht, ha]
    exact Or.inr rfl
  | _ => cases hn

/-- The calls a triggered recovery appends to the trace: the listener binding, the
activity signals, the calls of `clearInterruptDialogs` (none of them a nudge) and the
resume calls. -/
theorem recovered_effects (cfg : Settings) (now : Int) (dom : Dom) (st : State)
    (video : Video) (hv : dom.video = some video)
    (hr : (recoverStuckPlayback cfg now dom st).1 = .recovered) :
    ∃ before, (recoverStuckPlayback cfg now dom st).2.effects =
        st.effects ++ (before ++ resumeEffects dom video video.currentTime) ∧
      ∀ e ∈ before, isNudge e = false := by
  rw [recoverStuckPlayback_recovered_inv cfg now dom st video hv hr]
  obtain ⟨_, new1, new2, h2, h3, h4, _⟩ := recoverySteps_spec cfg now dom video
    video.currentTime
    { bindVideoDebugEvents video st with
      playbackHealth :=
        { lastTime := st.playbackHealth.lastTime
          lastProgressAt := st.playbackHealth.lastProgressAt
          lastRecoveryAt := now } }
  refine ⟨(if video.ytInterruptDebugBound then [] else [.bindVideoDebugEvents]) ++
    ([.keepLactFresh, .signalActivity] ++ (new1 ++ new2)), ?_, ?_⟩
  · rw [h2]
    simp only [bindVideoDebugEvents_effects, List.append_assoc]
  · intro e he
    simp only [List.mem_append] at he
    rcases he with h | h | h | h
    · split at h
      · cases h
      · rw [List.mem_singleton.mp h]
        rfl
    · simp only [List.mem_cons, List.mem_singleton, List.not_mem_nil, or_false] at h
      rcases h with h | h <;> rw [h] <;> rfl
    · exact (h3 e h).not_nudge
    · obtain ⟨n, hn⟩ := h4 e h
      rw [hn]
      rfl


theorem interruptedPage_recovered (position : ℚ) (st : State)
    (hp : ¬ |position - st.playbackHealth.lastTime| > 0.02)
    (hs : st.playbackHealth.lastProgressAt = 0) (hc : st.playbackHealth.lastRecoveryAt = 0) :
    (recoverStuckPlayback debugOn 8000 (interruptedPage position) st).1 = .recovered := by
  rw [recoverStuckPlayback_recovered debugOn 8000 (interruptedPage position) st
    (readyVideo position) rfl rfl rfl hp
    ((likelyBlocked_iff _ _).mpr (Or.inl rfl))
    (by rw [hs]; decide) (by rw [hc]; decide)]

/-- C13 (amended): in every triggered recovery, `video.currentTime = 0.05` is
assigned when and only when `readyState` is at least `HAVE_CURRENT_DATA` (2) and
the position is below 0.05 s, and `player.seekTo(0.05, true)` is invoked when and
only when the player exposes `seekTo`, `readyState` is at least 2 and the position
is below 0.1 s; these are the only position nudges of the recovery. So where the
player exposes `seekTo`, the seek is invoked whenever the assignment is made, and
for a position from 0.05 s up to 0.1 s the seek is invoked alone. -/
theorem recovery_nudge (cfg : Settings) (now : Int) (dom : Dom) (st : State) (video : Video)
    (hv : dom.video = some video)
    (hr : (recoverStuckPlayback cfg now dom st).1 = .recovered) :
    ∃ new, (recoverStuckPlayback cfg now dom st).2.effects = st.effects ++ new ∧
      (∀ e ∈ new, isNudge e = true → e = .setCurrentTime 0.05 ∨ e = .seekTo 0.05 true) ∧
      (Effect.setCurrentTime 0.05 ∈ new ↔
        video.readyState ≥ 2 ∧ video.currentTime < 0.05) ∧
      (Effect.seekTo 0.05 true ∈ new ↔
        seekToIsFunction dom = true ∧ video.readyState ≥ 2 ∧ video.currentTime < 0.1) ∧
      (seekToIsFunction dom = true → Effect.setCurrentTime 0.05 ∈ new →
        Effect.seekTo 0.05 true ∈ new) := by
  obtain ⟨before, heff, hbefore⟩ := recovered_effects cfg now dom st video hv hr
  have hset : Effect.setCurrentTime 0.05 ∈ before ++ resumeEffects dom video video.currentTime ↔
      video.readyState ≥ 2 ∧ video.currentTime < 0.05 := by
    rw [List.mem_append]
    constructor
    · rintro (h | h)
      · exact absurd (hbefore _ h) (by simp [isNudge])
      · exact ((setCurrentTime_mem_resumeEffects dom video _ _).mp h).2
    · intro h
      exact Or.inr ((setCurrentTime_mem_resumeEffects dom video _ _).mpr ⟨rfl, h⟩)
  have hseek : Effect.seekTo 0.05 true ∈ before ++ resumeEffects dom video video.currentTime ↔
      seekToIsFunction dom = true ∧ video.readyState ≥ 2 ∧ video.currentTime < 0.1 := by
    rw [List.mem_append]
    constructor
    · rintro (h | h)
      · exact absurd (hbefore _ h) (by simp [isNudge])
      · exact ((seekTo_mem_resumeEffects dom video _ _ _).mp h).2
    · intro h
      exact Or.inr ((seekTo_mem_resumeEffects dom video _ _ _).mpr ⟨⟨rfl, rfl⟩, h⟩)
  refine ⟨before ++ resumeEffects dom video video.currentTime, heff, ?_, hset, hseek, ?_⟩
  · intro e he hn
    rcases List.mem_append.mp he with h | h
    · rw [hbefore e h] at hn
      cases hn
    · exact isNudge_mem_resumeEffects dom video _ e h hn
  · intro hfun h
    obtain ⟨hready, hlt⟩ := hset.mp h
    exact hseek.mpr ⟨hfun, hready, lt_trans hlt (by norm_num)⟩

/-- C13 (witness): a recovery at position 0 with data available and a player that
exposes `seekTo`: the position is assigned and the seek is invoked. -/
theorem recovery_nudge_witness :
    ((interruptedPage 0).video = some (readyVideo 0) ∧
      (recoverStuckPlayback debugOn 8000 (interruptedPage 0) zeroState).1 = .recovered) ∧
    ∃ new, (recoverStuckPlayback debugOn 8000 (interruptedPage 0) zeroState).2.effects =
        zeroState.effects ++ new ∧
      Effect.setCurrentTime 0.05 ∈ new ∧ Effect.seekTo 0.05 true ∈ new := by
  have hr : (recoverStuckPlayback debugOn 8000 (interruptedPage 0) zeroState).1 = .recovered :=
    interruptedPage_recovered 0 zeroState (by norm_num [zeroState]) rfl rfl
  obtain ⟨new, h1, _, h3, h4, _⟩ := recovery_nudge debugOn 8000 (interruptedPage 0) zeroState
    (readyVideo 0) rfl hr
  refine ⟨⟨rfl, hr⟩, new, h1, h3.mpr ⟨by decide, ?_⟩, h4.mpr ⟨by decide, by decide, ?_⟩⟩
  · norm_num [readyVideo]
  · norm_num [readyVideo]

/-- C13 (counterexample): a recovery at position 0.07 s with data available and a
player that exposes `seekTo`: `player.seekTo(0.05, true)` is invoked while
`video.currentTime` is not assigned, so the seek and the assignment do not happen
for the same inputs. -/
theorem recovery_nudge_seek_only_counterexample :
    (recoverStuckPlayback debugOn 8000 (interruptedPage 0.07) nearZeroState).1 = .recovered ∧
    seekToIsFunction (interruptedPage 0.07) = true ∧
    Effect.seekTo 0.05 true ∈
      (recoverStuckPlayback debugOn 8000 (interruptedPage 0.07) nearZeroState).2.effects ∧
    Effect.setCurrentTime 0.05 ∉
      (recoverStuckPlayback debugOn 8000 (interruptedPage 0.07) nearZeroState).2.effects := by
  have hr : (recoverStuckPlayback debugOn 8000 (interruptedPage 0.07) nearZeroState).1
      = .recovered :=
    interruptedPage_recovered 0.07 nearZeroState (by norm_num [nearZeroState]) rfl rfl
  obtain ⟨before, heff, hbefore⟩ := recovered_effects debugOn 8000 (interruptedPage 0.07)
    nearZeroState (readyVideo 0.07) rfl hr
  refine ⟨hr, by decide, ?_, ?_⟩
  · rw [heff]
    refine List.mem_append_right _ (List.mem_append_right _ ?_)
    refine (seekTo_mem_resumeEffects _ _ _ _ _).mpr ⟨⟨rfl, rfl⟩, by decide, by decide, ?_⟩
    norm_num [readyVideo]
  · rw [heff]
    intro hmem
    rcases List.mem_append.mp hmem with h | h
    · cases h
    rcases List.mem_append.mp h with h | h
    · exact absurd (hbefore _ h) (by simp [isNudge])
    · have := ((setCurrentTime_mem_resumeEffects _ _ _ _).mp h).2.2
      norm_num [readyVideo] at this


end YtInterrupt
